import Mathlib

/-!
# Verification of the `factoriosrc` search engine

A shallow embedding, in Lean 4, of the parts of the `factoriosrc` repository
(a backtracking search program for periodic patterns in outer-totalistic
cellular automata) that the verified properties below are about:

* the coordinate canonicalization and cell-state queries of
  `lib/src/world.rs` (`canonicalize_coord`, `get_cell_state`, `population`,
  `rle`), together with the dihedral-group transformations of
  `lib/src/symmetry.rs`;
* the period-divisor check `check_period` of `lib/src/search.rs`;
* the propagation engine `set_cell` / `unset_cell` of `lib/src/world.rs`
  operating on the packed 16-bit neighborhood descriptors of
  `lib/src/rule.rs`, and the backtracking loop `backtrack` of
  `lib/src/search.rs`;
* the configuration and rule validation of `lib/src/config.rs`.

Machine integers are modelled as `Nat` / `Int`, with an explicit `% 2 ^ 16`
(resp. `% 2 ^ 32`) where the source's release-mode wrapping behaviour of
`u16` (resp. `u32`) arithmetic matters.  Raw cell pointers are modelled as
`Option Nat` indices into the world's cell array, which itself is modelled
as a function `Nat → LifeCell` together with a `size` field.
-/

namespace Factoriosrc

/-- The state of a known cell (`CellState` in `lib/src/rule.rs`).
`Dead` is encoded as the bit pattern `0b01` and `Alive` as `0b10`;
the code `0b00` stands for an unknown cell. -/
inductive CellState where
  | Dead
  | Alive
deriving DecidableEq, Repr

/-- The 2-bit encoding of a cell state (`CellState as u16` in the source). -/
def CellState.code : CellState → Nat
  | .Dead => 1
  | .Alive => 2

/-- The `Not` implementation for `CellState` (`!state` in the source). -/
def CellState.not : CellState → CellState
  | .Dead => .Alive
  | .Alive => .Dead

/-- Geometric transformations of the pattern: the 8 elements of the dihedral
group D8 (`Transformation` in `lib/src/symmetry.rs`). -/
inductive Transformation where
  | R0 | R1 | R2 | R3 | S0 | S1 | S2 | S3
deriving DecidableEq, Repr

/-- The alternative rotation/reflection representation of a transformation
(`enum D8` in `lib/src/symmetry.rs`).  The `i8` index is modelled as `Int`;
the source's `& 3` masking is the Euclidean remainder modulo 4. -/
inductive D8 where
  | R (i : Int)
  | S (i : Int)
deriving DecidableEq, Repr

/-- `D8::from` in `lib/src/symmetry.rs`. -/
def D8.ofTransformation : Transformation → D8
  | .R0 => .R 0
  | .R1 => .R 1
  | .R2 => .R 2
  | .R3 => .R 3
  | .S0 => .S 0
  | .S1 => .S 1
  | .S2 => .S 2
  | .S3 => .S 3

/-- `D8::into` in `lib/src/symmetry.rs`.  The source's `unreachable!()` arm
(indices produced by `from`, `inverse` and `compose` are always in `0..=3`)
is mapped to `R0`. -/
def D8.toTransformation : D8 → Transformation
  | .R 0 => .R0
  | .R 1 => .R1
  | .R 2 => .R2
  | .R 3 => .R3
  | .S 0 => .S0
  | .S 1 => .S1
  | .S 2 => .S2
  | .S 3 => .S3
  | _ => .R0

/-- `D8::inverse` in `lib/src/symmetry.rs`: `R(i)⁻¹ = R((-i) & 3)`,
`S(i)⁻¹ = S(i)`. -/
def D8.inverse : D8 → D8
  | .R i => .R ((-i).emod 4)
  | .S i => .S i

/-- `Transformation::inverse` in `lib/src/symmetry.rs`. -/
def Transformation.inverse (t : Transformation) : Transformation :=
  (D8.ofTransformation t).inverse.toTransformation

/-- `Transformation::apply_with_size` in `lib/src/symmetry.rs`: apply the
transformation to `(x, y)` using the center of a `width × height` world as
the center. -/
def Transformation.apply_with_size (t : Transformation) (x y width height : Int) :
    Int × Int :=
  match t with
  | .R0 => (x, y)
  | .R1 => (height - y - 1, x)
  | .R2 => (width - x - 1, height - y - 1)
  | .R3 => (y, width - x - 1)
  | .S0 => (x, height - y - 1)
  | .S1 => (y, x)
  | .S2 => (width - x - 1, y)
  | .S3 => (height - y - 1, width - x - 1)

/-- Coordinates of a cell: x, y, and the generation (`Coord` in
`lib/src/world.rs`). -/
abbrev Coord := Int × Int × Int

/-- The fields of a checked configuration that the `World` methods below
read: dimensions, period, translation and per-period transformation.
`Config::check` (`lib/src/config.rs`) rejects any configuration whose
`width`, `height` or `period` is zero, so a constructed `World` always
carries the recorded positivity facts. -/
structure WCfg where
  width : Nat
  height : Nat
  period : Nat
  period_pos : 0 < period
  dx : Int
  dy : Int
  transformation : Transformation

/-- The first loop of `World::canonicalize_coord` (`lib/src/world.rs`):
`while t < 0 { t += p; (x, y) = transformation.inverse().apply_with_size(x, y, w, h); x -= dx; y -= dy; }`. -/
def canonUpFromNeg (cfg : WCfg) (x y t : Int) : Coord :=
  if t < 0 then
    canonUpFromNeg cfg
      ((cfg.transformation.inverse.apply_with_size x y cfg.width cfg.height).1 - cfg.dx)
      ((cfg.transformation.inverse.apply_with_size x y cfg.width cfg.height).2 - cfg.dy)
      (t + cfg.period)
  else
    (x, y, t)
termination_by (-t).toNat
decreasing_by
  have := cfg.period_pos
  simp only [Int.lt_iff_add_one_le] at *
  omega

/-- The second loop of `World::canonicalize_coord` (`lib/src/world.rs`):
`while t >= p { t -= p; x += dx; y += dy; (x, y) = transformation.apply_with_size(x, y, w, h); }`. -/
def canonDownFromHigh (cfg : WCfg) (x y t : Int) : Coord :=
  if t ≥ (cfg.period : Int) then
    canonDownFromHigh cfg
      (cfg.transformation.apply_with_size (x + cfg.dx) (y + cfg.dy) cfg.width cfg.height).1
      (cfg.transformation.apply_with_size (x + cfg.dx) (y + cfg.dy) cfg.width cfg.height).2
      (t - cfg.period)
  else
    (x, y, t)
termination_by t.toNat
decreasing_by
  have := cfg.period_pos
  omega

/-- `World::canonicalize_coord` (`lib/src/world.rs`): walk the generation
into `0..period`, applying the transformation and translation at each
period boundary. -/
def canonicalize_coord (cfg : WCfg) (c : Coord) : Coord :=
  canonDownFromHigh cfg
    (canonUpFromNeg cfg c.1 c.2.1 c.2.2).1
    (canonUpFromNeg cfg c.1 c.2.1 c.2.2).2.1
    (canonUpFromNeg cfg c.1 c.2.1 c.2.2).2.2

/-- The coordinate view of a constructed `World` (`lib/src/world.rs`): the
configuration, the rule's neighborhood radius, the per-generation population
vector (a `Vec<usize>` of length `period`, modelled as a function queried at
indices below `period`), the configuration's rule string, and the contents
of the cell array, modelled as the map `stateAt` from a cell's coordinates
to its current state (`None` when the cell is unknown).  `stateAt` is only
ever queried at in-world coordinates, mirroring `get_cell_by_coord`. -/
structure CWorld where
  cfg : WCfg
  radius : Nat
  rule_str : String
  populationVec : Nat → Nat
  stateAt : Coord → Option CellState

/-- The bounds test of `World::get_cell_by_coord_ptr` (`lib/src/world.rs`):
`(-r..w + r).contains(&x) && (-r..h + r).contains(&y) && (0..p).contains(&t)`. -/
def in_world (cw : CWorld) (c : Coord) : Bool :=
  let r : Int := cw.radius
  decide (-r ≤ c.1 ∧ c.1 < (cw.cfg.width : Int) + r ∧
    -r ≤ c.2.1 ∧ c.2.1 < (cw.cfg.height : Int) + r ∧
    0 ≤ c.2.2 ∧ c.2.2 < (cw.cfg.period : Int))

/-- `World::get_cell_by_coord` (`lib/src/world.rs`), composed with reading
the found cell's state: `None` when the coordinate is outside the world,
otherwise the (possibly unknown) state stored in the cell. -/
def get_cell_by_coord (cw : CWorld) (c : Coord) : Option (Option CellState) :=
  if in_world cw c then some (cw.stateAt c) else none

/-- `World::get_cell_state` (`lib/src/world.rs`): canonicalize the
coordinates, then `get_cell_by_coord(...).map_or(Some(Dead), |cell| cell.state())`. -/
def get_cell_state (cw : CWorld) (c : Coord) : Option CellState :=
  (get_cell_by_coord cw (canonicalize_coord cw.cfg c)).getD (some .Dead)

/-- `World::population` (`lib/src/world.rs`): reduce the generation with
`rem_euclid` (Euclidean remainder, `Int.emod`) and index the population
vector. -/
def population (cw : CWorld) (t : Int) : Nat :=
  cw.populationVec (t.emod cw.cfg.period).toNat

/-- `World::check_period` (`lib/src/search.rs`): for each `d` in `2..=p`
dividing the period and both translations (`%` on `isize` is `Int.tmod`),
test whether the pattern already repeats with period `p / d` and
translation `(dx / d, dy / d)` (`/` on `isize` is `Int.tdiv`); if it does
for some `d`, report `false` (the candidate does not have the full
period). -/
def check_period (cw : CWorld) : Bool :=
  let p : Int := cw.cfg.period
  let dx := cw.cfg.dx
  let dy := cw.cfg.dy
  !((List.range' 2 (cw.cfg.period - 1)).any fun d =>
    (p.tmod d == 0 && dx.tmod d == 0 && dy.tmod d == 0) &&
    (let p0 := p.tdiv d
     let dx0 := dx.tdiv d
     let dy0 := dy.tdiv d
     (List.range cw.cfg.width).all fun x =>
       (List.range cw.cfg.height).all fun y =>
         get_cell_state cw (x, y, 0) ==
           get_cell_state cw ((x : Int) - dx0, (y : Int) - dy0, p0)))

/-- `str::trim_end_matches` on a character, as used by `World::rle`
(`lib/src/world.rs`) to trim the trailing dead cells of a row. -/
def trimEndMatches (l : List Char) (c : Char) : List Char :=
  (l.reverse.dropWhile (· == c)).reverse

/-- The row-building loop of `World::rle` (`lib/src/world.rs`): for each
row, append one character per cell, trim trailing dead cells when
`compact`, terminate the row with `$` (or `!` for the last row), and add a
newline when not `compact`. -/
def rleRows (cw : CWorld) (t : Int) (compact : Bool) : List Char :=
  let dead_char : Char := if compact then 'b' else '.'
  (List.range cw.cfg.height).foldl
    (fun body y =>
      let body := body ++ (List.range cw.cfg.width).map (fun x =>
        match get_cell_state cw (x, y, t) with
        | some .Dead => dead_char
        | some .Alive => 'o'
        | none => '?')
      let body := if compact then trimEndMatches body dead_char else body
      let body := body ++ [if y < cw.cfg.height - 1 then '$' else '!']
      if !compact then body ++ ['\n'] else body)
    []

/-- The run-length-encoding loop of `World::rle` (`lib/src/world.rs`):
count equal consecutive characters, emit `<count><char>` (the count omitted
when 1), and wrap the output to lines of at most 70 characters.  All the
characters involved are ASCII, so Rust's byte length `line.len()` is the
character count. -/
def rleEncode (result line : String) (count : Nat) : List Char → String
  | [] => result ++ line
  | c :: rest =>
    let count := count + 1
    if rest.head? ≠ some c then
      let run := (if count > 1 then toString count else "") ++ c.toString
      if line.length + run.length > 70 then
        rleEncode (result ++ line ++ "\n") run 0 rest
      else
        rleEncode result (line ++ run) 0 rest
    else
      rleEncode result line count rest

/-- `World::rle` (`lib/src/world.rs`): reduce the generation with
`rem_euclid`, emit the `x = .., y = .., rule = ..` header, build the body
rows, and run-length encode them when `compact`. -/
def rle (cw : CWorld) (t : Int) (compact : Bool) : String :=
  let t := t.emod cw.cfg.period
  let header := "x = " ++ toString cw.cfg.width ++ ", y = " ++
    toString cw.cfg.height ++ ", rule = " ++ cw.rule_str ++ "\n"
  let body := rleRows cw t compact
  if compact then rleEncode header "" 0 body
  else header ++ String.mk body

/-! ## Rule and configuration validation (`ca-rules2` and `lib/src/config.rs`) -/

/-- Predefined neighborhood shapes (`NeighborhoodType` in
`ca-rules2/src/rule.rs`). -/
inductive NbhdType where
  | Moore
  | VonNeumann
  | Cross
  | Hash
  | Hexagonal
deriving DecidableEq, Repr

/-- `NeighborhoodType::size` in `ca-rules2/src/rule.rs`: the number of
neighbors for a given radius.  The source computes in `u32` and then casts
to `usize`, so the product wraps modulo `2 ^ 32`. -/
def NbhdType.size (nt : NbhdType) (radius : Nat) : Nat :=
  (match nt with
    | .Moore => 4 * radius * (radius + 1)
    | .VonNeumann => 2 * radius * (radius + 1)
    | .Cross => 4 * radius
    | .Hash => 8 * radius
    | .Hexagonal => 3 * radius * (radius + 1)) % 2 ^ 32

/-- A neighbor's coordinates and weight (`Neighbor` in
`ca-rules2/src/rule.rs`). -/
structure Neighbor where
  coord : Int × Int
  weight : Nat
deriving DecidableEq, Repr

/-- The shape of a neighborhood (`Neighborhood` in `ca-rules2/src/rule.rs`). -/
inductive Neighborhood where
  | Totalistic (nt : NbhdType) (radius : Nat)
  | Nontotalistic (nt : NbhdType) (radius : Nat)
  | CustomTotalistic (coords : List (Int × Int))
  | CustomNontotalistic (coords : List (Int × Int))
  | CustomWeighted (neighbors : List Neighbor)
deriving DecidableEq, Repr

/-- `Neighborhood::size` in `ca-rules2/src/rule.rs`. -/
def Neighborhood.size : Neighborhood → Nat
  | .Totalistic nt radius => nt.size radius
  | .Nontotalistic nt radius => nt.size radius
  | .CustomTotalistic coords => coords.length
  | .CustomNontotalistic coords => coords.length
  | .CustomWeighted neighbors => neighbors.length

/-- `Neighborhood::is_totalistic` in `ca-rules2/src/rule.rs`. -/
def Neighborhood.is_totalistic : Neighborhood → Bool
  | .Totalistic _ _ => true
  | .CustomTotalistic _ => true
  | _ => false

/-- A parsed cellular-automaton rule (`Rule` in `ca-rules2/src/rule.rs`),
as produced by `Rule::from_str`. -/
structure CaRule where
  states : Nat
  neighborhood : Neighborhood
  birth : List Nat
  survival : List Nat
deriving DecidableEq, Repr

/-- `Rule::is_totalistic` in `ca-rules2/src/rule.rs`. -/
def CaRule.is_totalistic (rule : CaRule) : Bool :=
  rule.neighborhood.is_totalistic

/-- `Rule::neighborhood_size` in `ca-rules2/src/rule.rs`. -/
def CaRule.neighborhood_size (rule : CaRule) : Nat :=
  rule.neighborhood.size

/-- `Rule::contains_b0` in `ca-rules2/src/rule.rs`. -/
def CaRule.contains_b0 (rule : CaRule) : Bool :=
  rule.birth.contains 0

/-- `MAX_NEIGHBORHOOD_SIZE` in `lib/src/rule.rs`: the numbers of living and
dead neighbors are stored in 4-bit fields of the neighborhood descriptor,
so the neighborhood size is limited to 15. -/
def MAX_NEIGHBORHOOD_SIZE : Nat := 15

/-- The error kinds of configuration validation (`ConfigError` in
`lib/src/error.rs`). -/
inductive ConfigError where
  | InvalidRule
  | UnsupportedRule
  | InvalidSize
  | InvalidMaxPopulation
  | NotSquare
  | HasDiagonalWidth
  | InvalidTranslation
deriving DecidableEq, Repr

/-- The supported-rule checks of `Config::parse_rule` (`lib/src/config.rs`),
applied to the rule value that `Rule::from_str` produced from the rule
string (the string parser itself, `ca-rules2/src/parse.rs`, is not
modelled): reject rules with birth condition 0, rules whose neighborhood is
not a predefined totalistic one or is hexagonal, and rules whose
neighborhood size exceeds `MAX_NEIGHBORHOOD_SIZE`. -/
def parse_rule_support (rule : CaRule) : Except ConfigError CaRule :=
  if rule.contains_b0 then .error .UnsupportedRule
  else if !(match rule.neighborhood with
      | .Totalistic nt _ => nt ≠ NbhdType.Hexagonal
      | _ => false) then .error .UnsupportedRule
  else if rule.neighborhood_size > MAX_NEIGHBORHOOD_SIZE then .error .UnsupportedRule
  else .ok rule

/-- Symmetry of the pattern (`Symmetry` in `lib/src/config.rs`): the 10
subgroups of the dihedral group D8. -/
inductive Symmetry where
  | C1 | C2 | C4 | D2H | D2V | D2D | D2A | D4O | D4X | D8
deriving DecidableEq, Repr

/-- `Symmetry::is_subgroup_of` in `lib/src/config.rs` (note: the source's
`matches!` arm list has no arm whose first component is `D4X`, so
`D4X.is_subgroup_of(_)` is always `false` there). -/
def Symmetry.is_subgroup_of (s other : Symmetry) : Bool :=
  match s, other with
  | .C1, _ => true
  | .C2, .C2 | .C2, .C4 | .C2, .D4O | .C2, .D4X | .C2, .D8 => true
  | .C4, .C4 | .C4, .D8 => true
  | .D2H, .D2H | .D2H, .D4O | .D2H, .D8 => true
  | .D2V, .D2V | .D2V, .D4O | .D2V, .D8 => true
  | .D2D, .D2D | .D2D, .D4X | .D2D, .D8 => true
  | .D2A, .D2A | .D2A, .D4X | .D2A, .D8 => true
  | .D4O, .D4O | .D4O, .D8 => true
  | .D8, .D8 => true
  | _, _ => false

/-- `Symmetry::requires_square` in `lib/src/config.rs`. -/
def Symmetry.requires_square (s : Symmetry) : Bool :=
  !s.is_subgroup_of .D4O

/-- `Symmetry::requires_no_diagonal_width` in `lib/src/config.rs`. -/
def Symmetry.requires_no_diagonal_width (s : Symmetry) : Bool :=
  !s.is_subgroup_of .D4X

/-- `Symmetry::translation_is_valid` in `lib/src/config.rs`. -/
def Symmetry.translation_is_valid (s : Symmetry) (dx dy : Int) : Bool :=
  match s with
  | .C1 => true
  | .C2 => dx == 0 && dy == 0
  | .C4 => dx == 0 && dy == 0
  | .D2H => dx == 0
  | .D2V => dy == 0
  | .D2D => dx == dy
  | .D2A => dx == -dy
  | .D4O => dx == 0 && dy == 0
  | .D4X => dx == 0 && dy == 0
  | .D8 => dx == 0 && dy == 0

/-- Search order (`SearchOrder` in `lib/src/config.rs`). -/
inductive SearchOrder where
  | RowFirst
  | ColumnFirst
  | Diagonal
deriving DecidableEq, Repr

/-- How to guess the state of an unknown cell (`NewState` in
`lib/src/config.rs`). -/
inductive NewState where
  | Alive
  | Dead
  | Random
deriving DecidableEq, Repr

/-- The configuration of the world (`Config` in `lib/src/config.rs`).
`u32` fields are modelled as `Nat`, `i32` fields as `Int`. -/
structure Config where
  rule_str : String
  width : Nat
  height : Nat
  period : Nat
  dx : Int
  dy : Int
  diagonal_width : Option Nat
  symmetry : Symmetry
  search_order : Option SearchOrder
  new_state : NewState
  seed : Option Nat
  max_population : Option Nat
  reduce_max_population : Bool

/-- `Config::requires_square` in `lib/src/config.rs`. -/
def Config.requires_square (c : Config) : Bool :=
  c.symmetry.requires_square || c.diagonal_width.isSome ||
    c.search_order == some SearchOrder.Diagonal

/-- `Config::check` in `lib/src/config.rs`, after its leading
`self.parse_rule()?` call (the rule-string validation, modelled separately
by `parse_rule_support`): validate the sizes, population bound, squareness,
diagonal width and translation, then fill in an automatically determined
search order when none is specified. -/
def Config.check (c : Config) : Except ConfigError Config :=
  if c.width == 0 || c.height == 0 || c.period == 0 ||
      c.diagonal_width.any (· == 0) then
    .error .InvalidSize
  else if c.max_population.any (· == 0) then
    .error .InvalidMaxPopulation
  else if c.width ≠ c.height && c.requires_square then
    .error .NotSquare
  else if c.diagonal_width.isSome && c.symmetry.requires_no_diagonal_width then
    .error .HasDiagonalWidth
  else if !(c.symmetry.translation_is_valid c.dx c.dy) then
    .error .InvalidTranslation
  else if c.search_order.isNone then
    let width := match c.symmetry with
      | .D2H | .D4O | .D8 => (c.width + 1) / 2
      | _ => c.width
    let height := match c.symmetry with
      | .D2V | .D4O | .D8 => (c.height + 1) / 2
      | _ => c.height
    let diagonal_width := match c.symmetry with
      | .D2D | .D4X | .D8 => c.diagonal_width
      | _ => c.diagonal_width.map (fun d => 2 * d + 1)
    let search_order :=
      if diagonal_width.any (fun d => d < width && d < height) then
        SearchOrder.Diagonal
      else if width < height then SearchOrder.RowFirst
      else if width > height then SearchOrder.ColumnFirst
      else if c.dx.natAbs < c.dy.natAbs then SearchOrder.RowFirst
      else SearchOrder.ColumnFirst
    .ok { c with search_order := some search_order }
  else
    .ok c

/-! ## The propagation engine (`lib/src/cell.rs`, `lib/src/world.rs`,
`lib/src/search.rs`)

Cells live in a single array owned by the `World`; raw cell pointers are
modelled as `Option Nat` indices into that array, and the array itself as a
function `Nat → LifeCell` together with a `size` field. -/

/-- Why a cell was set (`Reason` in `lib/src/world.rs`). -/
inductive Reason where
  | Known
  | Deduced
  | Guessed
deriving DecidableEq, Repr

/-- Status of the search (`Status` in `lib/src/world.rs`). -/
inductive Status where
  | NotStarted
  | Running
  | Solved
  | NoSolution
deriving DecidableEq, Repr

/-- A cell of the lattice (`LifeCell` in `lib/src/cell.rs`).  The
`descriptor` is the packed `u16` neighborhood descriptor of
`lib/src/rule.rs` (bits 8..11 the dead count, bits 4..7 the alive count,
bits 2..3 the successor state, bits 0..1 the current state), modelled as a
`Nat` kept below `2 ^ 16` by the wrapping update operations.  The
`neighborhood` list holds the first `neighborhood_size` entries of the
source's pointer array, the only ones the engine ever visits. -/
structure LifeCell where
  generation : Nat
  state : Option CellState
  descriptor : Nat
  predecessor : Option Nat
  successor : Option Nat
  neighborhood : List (Option Nat)
  symmetry : List Nat
  next : Option Nat
  is_front : Bool

/-- `Descriptor::increment_dead` in `lib/src/rule.rs`: `self.0 += 1 << 8`
on a `u16`, which wraps modulo `2 ^ 16` in release builds. -/
def Descriptor.increment_dead (d : Nat) : Nat := (d + 256) % 2 ^ 16

/-- `Descriptor::increment_alive` in `lib/src/rule.rs`: `self.0 += 1 << 4`. -/
def Descriptor.increment_alive (d : Nat) : Nat := (d + 16) % 2 ^ 16

/-- `Descriptor::decrement_dead` in `lib/src/rule.rs`: `self.0 -= 1 << 8`,
i.e. a wrapping subtraction of 256 modulo `2 ^ 16`. -/
def Descriptor.decrement_dead (d : Nat) : Nat := (d + (2 ^ 16 - 256)) % 2 ^ 16

/-- `Descriptor::decrement_alive` in `lib/src/rule.rs`: `self.0 -= 1 << 4`. -/
def Descriptor.decrement_alive (d : Nat) : Nat := (d + (2 ^ 16 - 16)) % 2 ^ 16

/-- `Descriptor::set_current` in `lib/src/rule.rs` (named `update_current`
at the `LifeCell` level in `lib/src/cell.rs`): `self.0 ^= state as u16`.
Toggles the 2-bit current-state field between unknown and `state`. -/
def Descriptor.update_current (d : Nat) (s : CellState) : Nat := d ^^^ s.code

/-- `Descriptor::set_successor` in `lib/src/rule.rs` (named
`update_successor` in `lib/src/cell.rs`): `self.0 ^= (state as u16) << 2`. -/
def Descriptor.update_successor (d : Nat) (s : CellState) : Nat :=
  d ^^^ (s.code * 4)

/-- The mutable part of a `World` (`lib/src/world.rs`) that the propagation
engine operates on: the cell array, the per-generation population vector
(modelled as a function, indexed by generations below `period`), the front
count, the backtracking stack (the list's head is the top of the `Vec`),
the stack cursor, the search-order head pointer and the status. -/
structure WorldState where
  size : Nat
  period : Nat
  cells : Nat → LifeCell
  population : Nat → Nat
  front_count : Nat
  stack : List (Nat × Reason)
  stack_index : Nat
  start : Option Nat
  status : Status

/-- Apply an update to the cell at index `i` of the array.  This models a
write through one of the source's interior-mutable cell fields. -/
def updCell (w : WorldState) (i : Nat) (g : LifeCell → LifeCell) : WorldState :=
  { w with cells := fun j => if j = i then g (w.cells j) else w.cells j }

/-- The writes `cell.state.set(Some(state)); cell.update_current(state)` at
the start of `World::set_cell`. -/
def setCurrentCell (state : CellState) (c : LifeCell) : LifeCell :=
  { c with
    state := some state
    descriptor := Descriptor.update_current c.descriptor state }

/-- The writes `cell.state.set(None); cell.update_current(state)` at the
start of `World::unset_cell` (`state` being the state the cell had). -/
def unsetCurrentCell (state : CellState) (c : LifeCell) : LifeCell :=
  { c with
    state := none
    descriptor := Descriptor.update_current c.descriptor state }

/-- The neighbor update of `World::set_cell`: increment the neighbor's
dead or alive count according to the state being set. -/
def incNeighborCell (state : CellState) (c : LifeCell) : LifeCell :=
  { c with
    descriptor := match state with
      | .Dead => Descriptor.increment_dead c.descriptor
      | .Alive => Descriptor.increment_alive c.descriptor }

/-- The neighbor update of `World::unset_cell`: decrement the neighbor's
dead or alive count according to the state being unset. -/
def decNeighborCell (state : CellState) (c : LifeCell) : LifeCell :=
  { c with
    descriptor := match state with
      | .Dead => Descriptor.decrement_dead c.descriptor
      | .Alive => Descriptor.decrement_alive c.descriptor }

/-- The predecessor update shared by `World::set_cell` and
`World::unset_cell`: toggle the successor field of the predecessor's
descriptor. -/
def succUpdateCell (state : CellState) (c : LifeCell) : LifeCell :=
  { c with descriptor := Descriptor.update_successor c.descriptor state }

/-- The neighbor loop shared by `World::set_cell` and `World::unset_cell`
(`lib/src/world.rs`): visit the first `neighborhood_size` neighbor
pointers of a cell and update each non-null one. -/
def bumpNeighbors (w : WorldState) (nb : List (Option Nat))
    (g : LifeCell → LifeCell) : WorldState :=
  nb.foldl
    (fun wa n =>
      match n with
      | some j => updCell wa j g
      | none => wa)
    w

/-- `World::set_cell` (`lib/src/world.rs`): record the state and toggle the
cell's own current-state descriptor field, increment the matching neighbor
count of every non-null neighbor, toggle the successor field of the
predecessor's descriptor, update `front_count` (a `usize` decrement) and
the population vector, and push `(cell, reason)` onto the stack.  The
source `debug_assert!`s that the cell is unknown. -/
def set_cell (w : WorldState) (i : Nat) (state : CellState) (reason : Reason) :
    WorldState :=
  let cell := w.cells i
  let w1 := updCell w i (setCurrentCell state)
  let w2 := bumpNeighbors w1 cell.neighborhood (incNeighborCell state)
  let w3 := match cell.predecessor with
    | some p => updCell w2 p (succUpdateCell state)
    | none => w2
  let w4 := if cell.is_front && state == CellState.Dead then
      { w3 with front_count := w3.front_count - 1 }
    else w3
  let w5 := if state == CellState.Alive then
      { w4 with population := fun t =>
          if t = cell.generation then w4.population t + 1 else w4.population t }
    else w4
  { w5 with stack := (i, reason) :: w5.stack }

/-- `World::unset_cell` (`lib/src/world.rs`): the exact inverse of
`set_cell`, except that the stack is left untouched (the caller,
`backtrack`, pops the stack itself).  The source reads the state with
`cell.state().unwrap()`, so it can only be called on a known cell; the
unknown-cell branch below (in which the source would panic) leaves the
world unchanged. -/
def unset_cell (w : WorldState) (i : Nat) : WorldState :=
  match (w.cells i).state with
  | none => w
  | some state =>
    let cell := w.cells i
    let w1 := updCell w i (unsetCurrentCell state)
    let w2 := bumpNeighbors w1 cell.neighborhood (decNeighborCell state)
    let w3 := match cell.predecessor with
      | some p => updCell w2 p (succUpdateCell state)
      | none => w2
    let w4 := if cell.is_front && state == CellState.Dead then
        { w3 with front_count := w3.front_count + 1 }
      else w3
    if state == CellState.Alive then
      { w4 with population := fun t =>
          if t = cell.generation then w4.population t - 1 else w4.population t }
    else w4

/-- The loop of `World::backtrack` (`lib/src/search.rs`).  The list
argument mirrors `self.stack`, from which the source pops one entry per
iteration; `unset_cell` never touches the stack, so the recursion argument
stays equal to the popped stack.  A popped `Known` entry `break`s out of
the loop (falling through to `NoSolution`); a popped `Deduced` entry is
unset; a popped `Guessed` entry is unset and re-set to the opposite state
with reason `Deduced`, after rewinding `stack_index` to the popped stack's
length and `start` to the guessed cell's `next`. -/
def backtrackLoop (w : WorldState) : List (Nat × Reason) → WorldState × Status
  | [] => (w, Status.NoSolution)
  | (i, reason) :: rest =>
    let w' := { w with stack := rest }
    match reason with
    | .Known => (w', Status.NoSolution)
    | .Deduced => backtrackLoop (unset_cell w' i) rest
    | .Guessed =>
      match (w'.cells i).state with
      | some state =>
        let w1 := { w' with stack_index := rest.length, start := (w'.cells i).next }
        (set_cell (unset_cell w1 i) i state.not Reason.Deduced, Status.Running)
      | none => (w', Status.NoSolution)

/-- `World::backtrack` (`lib/src/search.rs`): pop the stack back to the
most recent guess and flip it, returning the resulting status. -/
def backtrack (w : WorldState) : WorldState × Status :=
  backtrackLoop w w.stack

/-- The number of cells of generation `t` whose state is `Alive`:
the quantity that the invariant of `World::population` tracks. -/
def countAlive (w : WorldState) (t : Nat) : Nat :=
  ((Finset.range w.size).filter fun i =>
    (w.cells i).generation = t ∧ (w.cells i).state = some CellState.Alive).card

/-- The number of front cells that are not known to be dead: the quantity
that `front_count` tracks (`lib/src/world.rs`). -/
def countFront (w : WorldState) : Nat :=
  ((Finset.range w.size).filter fun i =>
    (w.cells i).is_front = true ∧ (w.cells i).state ≠ some CellState.Dead).card

/-- The world as `World::new` (`lib/src/world.rs`) leaves it right after
allocation and `init_front`, before `init_known` starts calling
`set_cell`: every cell unknown, the population vector all zeros, the stack
empty, and `front_count` equal to the number of cells `init_front` marked
(each marked cell is counted exactly once, and every cell is unknown at
that point, so this is `countFront`). -/
def IsInitial (w : WorldState) : Prop :=
  (∀ i, (w.cells i).state = none) ∧ (∀ t, w.population t = 0) ∧
    w.front_count = countFront w ∧ w.stack = []

/-- The world states reachable from construction: the initial state,
closed under `set_cell` on an unknown in-range cell, `unset_cell` on a
known in-range cell, and the search loop's direct writes to the stack, the
stack cursor, the start pointer and the status (`check_stack`,
`backtrack`, `guess` and `search` in `lib/src/search.rs`), which touch
neither the cells nor the tracked counters. -/
inductive Reachable : WorldState → Prop where
  | init : ∀ (w : WorldState), IsInitial w → Reachable w
  | set : ∀ (w : WorldState) (i : Nat) (s : CellState) (r : Reason),
      Reachable w → i < w.size → (w.cells i).state = none →
      Reachable (set_cell w i s r)
  | unset : ∀ (w : WorldState) (i : Nat) (s : CellState), Reachable w →
      i < w.size → (w.cells i).state = some s → Reachable (unset_cell w i)
  | ctrl : ∀ (w : WorldState) (st : List (Nat × Reason)) (si : Nat)
      (so : Option Nat) (stat : Status), Reachable w →
      Reachable { w with stack := st, stack_index := si, start := so, status := stat }

/-! ## Concrete sample inputs, used to instantiate the theorems below -/

/-- A sample configuration: a 3×3 world with period 2 and no translation or
transformation (the configuration of the `World` doctest in
`lib/src/world.rs`). -/
def cfgW : WCfg :=
  { width := 3, height := 3, period := 2, period_pos := by decide,
    dx := 0, dy := 0, transformation := .R0 }

/-- A sample world over `cfgW` with radius 1 in which every cell is
unknown. -/
def cwW : CWorld :=
  { cfg := cfgW, radius := 1, rule_str := "B3/S23",
    populationVec := fun _ => 0, stateAt := fun _ => none }

/-- The rule value that `Rule::from_str` produces for the higher-range
outer-totalistic rule string `R2,C2,S2-3,B3,NM` (Conway-like life on the
Moore neighborhood of radius 2): totalistic, non-hexagonal, no birth on 0,
and 24 neighbors. -/
def lifeR2 : CaRule :=
  { states := 2, neighborhood := .Totalistic .Moore 2,
    birth := [3], survival := [2, 3] }

/-- A single isolated cell that is known dead. -/
def cellKnownDead : LifeCell :=
  { generation := 0, state := some CellState.Dead, descriptor := 260,
    predecessor := none, successor := none, neighborhood := [],
    symmetry := [], next := none, is_front := false }

/-- A one-cell world whose stack holds a single `Known` entry for its
(known dead) cell. -/
def wKnownTop : WorldState :=
  { size := 1, period := 1, cells := fun _ => cellKnownDead,
    population := fun _ => 0, front_count := 0,
    stack := [(0, Reason.Known)], stack_index := 1, start := none,
    status := Status.Running }

/-- A single isolated cell that is known alive. -/
def cellGuessAlive : LifeCell :=
  { generation := 0, state := some CellState.Alive, descriptor := 2,
    predecessor := none, successor := none, neighborhood := [],
    symmetry := [], next := none, is_front := false }

/-- A one-cell world whose stack holds a single `Guessed` entry for its
(known alive) cell. -/
def wGuessTop : WorldState :=
  { size := 1, period := 1, cells := fun _ => cellGuessAlive,
    population := fun t => if t = 0 then 1 else 0, front_count := 0,
    stack := [(0, Reason.Guessed)], stack_index := 1, start := none,
    status := Status.Running }

/-- A single unknown front cell. -/
def cellUnknown : LifeCell :=
  { generation := 0, state := none, descriptor := 0,
    predecessor := none, successor := none, neighborhood := [],
    symmetry := [], next := none, is_front := true }

/-- A freshly initialized one-cell world (every cell unknown, population
zero, empty stack, `front_count` covering the front cell). -/
def wInit : WorldState :=
  { size := 1, period := 1, cells := fun _ => cellUnknown,
    population := fun _ => 0, front_count := 1, stack := [],
    stack_index := 0, start := some 0, status := Status.NotStarted }

/-- A cell that is known alive, has the cell at index 1 as its only
neighbor, and is its own predecessor (as happens at period 1 with no
translation). -/
def cellPair0 : LifeCell :=
  { generation := 0, state := some CellState.Alive, descriptor := 22,
    predecessor := some 0, successor := some 0, neighborhood := [some 1, none],
    symmetry := [], next := none, is_front := false }

/-- An unknown cell whose only neighbor is the cell at index 0. -/
def cellPair1 : LifeCell :=
  { generation := 0, state := none, descriptor := 16,
    predecessor := some 1, successor := some 1, neighborhood := [some 0, none],
    symmetry := [], next := none, is_front := false }

/-- A two-cell world pairing `cellPair0` and `cellPair1`. -/
def wPair : WorldState :=
  { size := 2, period := 1,
    cells := fun j => if j = 0 then cellPair0 else cellPair1,
    population := fun t => if t = 0 then 1 else 0, front_count := 0,
    stack := [(0, Reason.Guessed)], stack_index := 1, start := none,
    status := Status.Running }

/-! ## Canonicalization (claims C7 and C6) -/

theorem canonUpFromNeg_spec (cfg : WCfg) (x y t : Int) :
    (0 ≤ t → canonUpFromNeg cfg x y t = (x, y, t)) ∧
      (t < 0 → 0 ≤ (canonUpFromNeg cfg x y t).2.2 ∧
        (canonUpFromNeg cfg x y t).2.2 < cfg.period) := by
  induction x, y, t using canonUpFromNeg.induct cfg with
  | case1 x y t ht ih =>
    rw [canonUpFromNeg]
    simp only [ht, if_pos]
    have hp := cfg.period_pos
    constructor
    · intro h0; omega
    · intro _
      rcases lt_or_le (t + (cfg.period : Int)) 0 with h | h
      · exact ih.2 h
      · rw [ih.1 h]; simp; omega
  | case2 x y t ht =>
    rw [canonUpFromNeg, if_neg ht]
    constructor
    · intro _; rfl
    · intro h; omega

theorem canonDownFromHigh_spec (cfg : WCfg) (x y t : Int) :
    (t < cfg.period → canonDownFromHigh cfg x y t = (x, y, t)) ∧
      (0 ≤ t → 0 ≤ (canonDownFromHigh cfg x y t).2.2 ∧
        (canonDownFromHigh cfg x y t).2.2 < cfg.period) := by
  induction x, y, t using canonDownFromHigh.induct cfg with
  | case1 x y t ht ih =>
    rw [canonDownFromHigh]
    simp only [ht, if_pos]
    have hp := cfg.period_pos
    constructor
    · intro h; omega
    · intro _
      exact ih.2 (by omega)
  | case2 x y t ht =>
    rw [canonDownFromHigh, if_neg ht]
    constructor
    · intro _; rfl
    · intro h; exact ⟨h, not_le.mp ht⟩

theorem canonicalize_coord_eq (cfg : WCfg) (x y t : Int) :
    canonicalize_coord cfg (x, y, t) =
      canonDownFromHigh cfg (canonUpFromNeg cfg x y t).1
        (canonUpFromNeg cfg x y t).2.1 (canonUpFromNeg cfg x y t).2.2 := rfl

theorem canonicalize_coord_t_mem (cfg : WCfg) (c : Coord) :
    0 ≤ (canonicalize_coord cfg c).2.2 ∧
      (canonicalize_coord cfg c).2.2 < cfg.period := by
  obtain ⟨x, y, t⟩ := c
  rw [canonicalize_coord_eq]
  rcases lt_or_le t 0 with h | h
  · obtain ⟨h0, h1⟩ := (canonUpFromNeg_spec cfg x y t).2 h
    rcases hu : canonUpFromNeg cfg x y t with ⟨x', y', t'⟩
    rw [hu] at h0 h1
    simp only at h0 h1
    rw [(canonDownFromHigh_spec cfg x' y' t').1 h1]
    exact ⟨h0, h1⟩
  · rw [(canonUpFromNeg_spec cfg x y t).1 h]
    exact (canonDownFromHigh_spec cfg x y t).2 h

/-- **C7.** For every world (whose period is positive, as `Config::check`
guarantees) and every coordinate, `canonicalize_coord` is idempotent and
the canonicalized generation lies in `0..period`. -/
theorem canonicalize_coord_idem_and_mem (cfg : WCfg) (c : Coord) :
    canonicalize_coord cfg (canonicalize_coord cfg c) = canonicalize_coord cfg c ∧
      0 ≤ (canonicalize_coord cfg c).2.2 ∧
      (canonicalize_coord cfg c).2.2 < cfg.period := by
  obtain ⟨h0, h1⟩ := canonicalize_coord_t_mem cfg c
  refine ⟨?_, h0, h1⟩
  rcases hc : canonicalize_coord cfg c with ⟨x, y, t⟩
  rw [hc] at h0 h1
  simp only at h0 h1
  rw [canonicalize_coord_eq, (canonUpFromNeg_spec cfg x y t).1 h0]
  exact (canonDownFromHigh_spec cfg x y t).1 h1

/-- **C6.** `get_cell_state` first canonicalizes its argument; it returns
the stored state when the canonical coordinate is inside the world and
`Some(Dead)` when it is outside; in particular it never returns `None` for
a coordinate whose canonical form is outside the world. -/
theorem get_cell_state_spec (cw : CWorld) (c : Coord) :
    get_cell_state cw c =
        (if in_world cw (canonicalize_coord cw.cfg c) then
          cw.stateAt (canonicalize_coord cw.cfg c)
        else some CellState.Dead) ∧
      (get_cell_state cw c = none → in_world cw (canonicalize_coord cw.cfg c) = true) := by
  constructor
  · unfold get_cell_state get_cell_by_coord
    split <;> simp
  · intro h
    unfold get_cell_state get_cell_by_coord at h
    by_contra hw
    rw [if_neg hw] at h
    simp at h

/-- Witness for C6: in the sample world `cwW` the in-world coordinate
`(0, 0, 0)` holds an unknown cell, so `get_cell_state` returns `None` and
the theorem yields that its canonical form is in-world; and the theorem
computes the out-of-world query `(5, 0, 0)` to `Some(Dead)`. -/
theorem get_cell_state_spec_witness :
    in_world cwW (canonicalize_coord cwW.cfg (0, 0, 0)) = true ∧
      get_cell_state cwW (5, 0, 0) = some CellState.Dead := by
  have hc0 : canonicalize_coord cwW.cfg (0, 0, 0) = (0, 0, 0) := by
    rw [canonicalize_coord_eq, (canonUpFromNeg_spec cwW.cfg 0 0 0).1 le_rfl]
    exact (canonDownFromHigh_spec cwW.cfg 0 0 0).1 (by decide)
  have hc5 : canonicalize_coord cwW.cfg (5, 0, 0) = (5, 0, 0) := by
    rw [canonicalize_coord_eq, (canonUpFromNeg_spec cwW.cfg 5 0 0).1 le_rfl]
    exact (canonDownFromHigh_spec cwW.cfg 5 0 0).1 (by decide)
  constructor
  · refine (get_cell_state_spec cwW (0, 0, 0)).2 ?_
    unfold get_cell_state get_cell_by_coord
    rw [hc0]
    decide
  · rw [(get_cell_state_spec cwW (5, 0, 0)).1, hc5]
    decide

/-! ## Generation accessors reduce modulo the period (claim C10) -/

/-- **C10.** The public accessors `population(t)` and `rle(t, compact)`
reduce their generation argument with the Euclidean remainder modulo the
period, so they agree at `t` and at `t mod P` for every `t`, negative
generations included. -/
theorem population_rle_emod (cw : CWorld) (t : Int) (compact : Bool) :
    population cw t = population cw (t.emod cw.cfg.period) ∧
      rle cw t compact = rle cw (t.emod cw.cfg.period) compact := by
  have key : (t.emod cw.cfg.period).emod cw.cfg.period = t.emod cw.cfg.period :=
    Int.emod_emod_of_dvd t dvd_rfl
  constructor
  · unfold population
    rw [key]
  · unfold rle
    rw [key]

/-! ## Rule validation (claim C5) -/

/-- **C5 (the code side of the divergence).** The rule
`R2,C2,S2-3,B3,NM`, i.e. life on the Moore neighborhood of radius 2, is
totalistic, not hexagonal, has no birth-on-0 and has exactly 24 neighbors,
yet the rule validation of `Config::parse_rule` rejects it with
`UnsupportedRule`, because `MAX_NEIGHBORHOOD_SIZE` in `lib/src/rule.rs` is
15 while the documentation of `Config::parse_rule` (`lib/src/config.rs`)
promises support for neighborhood sizes up to 24. -/
theorem parse_rule_support_rejects_size24 :
    lifeR2.is_totalistic = true ∧
      lifeR2.neighborhood = Neighborhood.Totalistic NbhdType.Moore 2 ∧
      lifeR2.contains_b0 = false ∧
      lifeR2.neighborhood_size = 24 ∧
      parse_rule_support lifeR2 = Except.error ConfigError.UnsupportedRule := by
  exact ⟨rfl, rfl, rfl, by decide, rfl⟩

/-! ## Configuration validation (claim C9) -/

/-- **C9.** For a configuration whose rule passed the rule validation,
`Config::check` errors exactly when one of the five validation conditions
holds, and returns each error kind exactly for its condition (earlier
checks taking precedence): `InvalidSize` for a zero width, height, period
or diagonal width; `InvalidMaxPopulation` for a zero population bound;
`NotSquare` when the world is not square though the symmetry, a diagonal
width or a diagonal search order demands it; `HasDiagonalWidth` when a
diagonal width is set though the symmetry forbids it; and
`InvalidTranslation` when `(dx, dy)` is incompatible with the symmetry;
otherwise it succeeds. -/
theorem config_check_spec (c : Config) :
    ((∃ e, c.check = .error e) ↔
      ((c.width = 0 ∨ c.height = 0 ∨ c.period = 0 ∨ c.diagonal_width = some 0) ∨
        c.max_population = some 0 ∨
        (c.width ≠ c.height ∧ c.requires_square = true) ∨
        (c.diagonal_width.isSome = true ∧
          c.symmetry.requires_no_diagonal_width = true) ∨
        c.symmetry.translation_is_valid c.dx c.dy = false)) ∧
    (c.check = .error .InvalidSize ↔
      (c.width = 0 ∨ c.height = 0 ∨ c.period = 0 ∨ c.diagonal_width = some 0)) ∧
    (c.check = .error .InvalidMaxPopulation ↔
      (¬(c.width = 0 ∨ c.height = 0 ∨ c.period = 0 ∨ c.diagonal_width = some 0) ∧
        c.max_population = some 0)) ∧
    (c.check = .error .NotSquare ↔
      (¬(c.width = 0 ∨ c.height = 0 ∨ c.period = 0 ∨ c.diagonal_width = some 0) ∧
        ¬c.max_population = some 0 ∧
        (c.width ≠ c.height ∧ c.requires_square = true))) ∧
    (c.check = .error .HasDiagonalWidth ↔
      (¬(c.width = 0 ∨ c.height = 0 ∨ c.period = 0 ∨ c.diagonal_width = some 0) ∧
        ¬c.max_population = some 0 ∧
        ¬(c.width ≠ c.height ∧ c.requires_square = true) ∧
        (c.diagonal_width.isSome = true ∧
          c.symmetry.requires_no_diagonal_width = true))) ∧
    (c.check = .error .InvalidTranslation ↔
      (¬(c.width = 0 ∨ c.height = 0 ∨ c.period = 0 ∨ c.diagonal_width = some 0) ∧
        ¬c.max_population = some 0 ∧
        ¬(c.width ≠ c.height ∧ c.requires_square = true) ∧
        ¬(c.diagonal_width.isSome = true ∧
          c.symmetry.requires_no_diagonal_width = true) ∧
        c.symmetry.translation_is_valid c.dx c.dy = false)) := by
  have hdw : ((c.diagonal_width.any fun d => d == 0) = true) ↔
      c.diagonal_width = some 0 := by
    cases c.diagonal_width <;> simp [Option.any]
  have hmp : ((c.max_population.any fun p => p == 0) = true) ↔
      c.max_population = some 0 := by
    cases c.max_population <;> simp [Option.any]
  by_cases h1 : (c.width == 0 || c.height == 0 || c.period == 0 ||
      (c.diagonal_width.any fun d => d == 0)) = true
  · have hchk : c.check = .error .InvalidSize := by
      unfold Config.check
      rw [if_pos h1]
    have hA : c.width = 0 ∨ c.height = 0 ∨ c.period = 0 ∨
        c.diagonal_width = some 0 := by
      simp only [Bool.or_eq_true, beq_iff_eq, hdw] at h1
      tauto
    rw [hchk]
    refine ⟨?_, ?_, ?_, ?_, ?_, ?_⟩ <;> simp [hA]
  · have hA : ¬(c.width = 0 ∨ c.height = 0 ∨ c.period = 0 ∨
        c.diagonal_width = some 0) := by
      simp only [Bool.or_eq_true, beq_iff_eq, hdw] at h1
      tauto
    by_cases h2 : (c.max_population.any fun p => p == 0) = true
    · have hchk : c.check = .error .InvalidMaxPopulation := by
        unfold Config.check
        rw [if_neg h1, if_pos h2]
      have hB : c.max_population = some 0 := hmp.mp h2
      rw [hchk]
      refine ⟨?_, ?_, ?_, ?_, ?_, ?_⟩ <;> simp [hA, hB]
    · have hB : ¬c.max_population = some 0 := fun h => h2 (hmp.mpr h)
      by_cases h3 : (c.width ≠ c.height && c.requires_square) = true
      · have hchk : c.check = .error .NotSquare := by
          unfold Config.check
          rw [if_neg h1, if_neg h2, if_pos h3]
        have hC : c.width ≠ c.height ∧ c.requires_square = true := by
          simpa [Bool.and_eq_true, decide_eq_true_eq] using h3
        rw [hchk]
        refine ⟨?_, ?_, ?_, ?_, ?_, ?_⟩ <;> simp [hA, hB, hC]
      · have hC : ¬(c.width ≠ c.height ∧ c.requires_square = true) := by
          intro h
          exact h3 (by simp [Bool.and_eq_true, decide_eq_true_eq, h.1, h.2])
        by_cases h4 : (c.diagonal_width.isSome &&
            c.symmetry.requires_no_diagonal_width) = true
        · have hchk : c.check = .error .HasDiagonalWidth := by
            unfold Config.check
            rw [if_neg h1, if_neg h2, if_neg h3, if_pos h4]
          have hD : c.diagonal_width.isSome = true ∧
              c.symmetry.requires_no_diagonal_width = true := by
            simpa [Bool.and_eq_true] using h4
          rw [hchk]
          refine ⟨?_, ?_, ?_, ?_, ?_, ?_⟩ <;> simp [hA, hB, hC, hD]
        · have hD : ¬(c.diagonal_width.isSome = true ∧
              c.symmetry.requires_no_diagonal_width = true) := by
            intro h
            exact h4 (by simp [Bool.and_eq_true, h.1, h.2])
          by_cases h5 : (!(c.symmetry.translation_is_valid c.dx c.dy)) = true
          · have hchk : c.check = .error .InvalidTranslation := by
              unfold Config.check
              rw [if_neg h1, if_neg h2, if_neg h3, if_neg h4, if_pos h5]
            have hE : c.symmetry.translation_is_valid c.dx c.dy = false := by
              simpa [Bool.not_eq_true'] using h5
            rw [hchk]
            refine ⟨?_, ?_, ?_, ?_, ?_, ?_⟩ <;> simp [hA, hB, hC, hD, hE]
          · have hE : ¬c.symmetry.translation_is_valid c.dx c.dy = false := by
              simpa [Bool.not_eq_true'] using h5
            have hchk : ∃ c', c.check = .ok c' := by
              unfold Config.check
              rw [if_neg h1, if_neg h2, if_neg h3, if_neg h4, if_neg h5]
              by_cases h6 : c.search_order.isNone = true
              · rw [if_pos h6]
                exact ⟨_, rfl⟩
              · rw [if_neg h6]
                exact ⟨_, rfl⟩
            obtain ⟨c', hchk⟩ := hchk
            rw [hchk]
            refine ⟨?_, ?_, ?_, ?_, ?_, ?_⟩ <;> simp [hA, hB, hC, hD, hE]

/-! ## The period-divisor check (claim C1) -/

theorem int_tmod_eq_zero_iff (a : Int) (d : Nat) :
    a.tmod d = 0 ↔ (d : Int) ∣ a :=
  ⟨Int.dvd_of_tmod_eq_zero, Int.tmod_eq_zero_of_dvd⟩

/-- **C1.** `check_period` reports a wrong (divisible) period — i.e.
returns `false`, upon which `search` rejects the candidate and calls
`backtrack` — exactly when some `d ≥ 2` divides the period and both
translations and the pattern of generation 0 equals the pattern of
generation `P/d` shifted by `(dx/d, dy/d)` on the whole bounding box. -/
theorem check_period_iff (cw : CWorld) :
    check_period cw = false ↔
      ∃ d : Nat, 2 ≤ d ∧ (d : Int) ∣ (cw.cfg.period : Int) ∧
        (d : Int) ∣ cw.cfg.dx ∧ (d : Int) ∣ cw.cfg.dy ∧
        ∀ x y : Int, 0 ≤ x → x < (cw.cfg.width : Int) →
          0 ≤ y → y < (cw.cfg.height : Int) →
          get_cell_state cw (x, y, 0) =
            get_cell_state cw (x - cw.cfg.dx.tdiv d, y - cw.cfg.dy.tdiv d,
              (cw.cfg.period : Int).tdiv d) := by
  have hp := cw.cfg.period_pos
  unfold check_period
  simp only [Bool.not_eq_false', List.any_eq_true, Bool.and_eq_true,
    beq_iff_eq, List.all_eq_true, List.mem_range]
  constructor
  · rintro ⟨d, hdmem, ⟨⟨⟨hpd, hxd⟩, hyd⟩, hall⟩⟩
    have hdmem' : 2 ≤ d ∧ d < 2 + (cw.cfg.period - 1) :=
      List.mem_range'_1.mp hdmem
    refine ⟨d, hdmem'.1, (int_tmod_eq_zero_iff _ _).mp hpd,
      (int_tmod_eq_zero_iff _ _).mp hxd, (int_tmod_eq_zero_iff _ _).mp hyd,
      ?_⟩
    intro x y hx0 hxw hy0 hyh
    have hx := hall x.toNat (by omega)
    have hy := hx y.toNat (by omega)
    rwa [Int.toNat_of_nonneg hx0, Int.toNat_of_nonneg hy0] at hy
  · rintro ⟨d, hd2, hpd, hxd, hyd, hall⟩
    have hdp : (d : Int) ≤ (cw.cfg.period : Int) :=
      Int.le_of_dvd (by exact_mod_cast hp) hpd
    have hdp' : d ≤ cw.cfg.period := by exact_mod_cast hdp
    refine ⟨d, List.mem_range'_1.mpr ⟨hd2, by omega⟩,
      ⟨⟨⟨(int_tmod_eq_zero_iff _ _).mpr hpd,
        (int_tmod_eq_zero_iff _ _).mpr hxd⟩,
        (int_tmod_eq_zero_iff _ _).mpr hyd⟩, ?_⟩⟩
    intro x hx y hy
    exact hall x y (by omega) (by exact_mod_cast hx) (by omega)
      (by exact_mod_cast hy)

/-! ## Lemmas about the propagation engine -/

theorem updCell_cells (w : WorldState) (i : Nat) (g : LifeCell → LifeCell)
    (j : Nat) :
    (updCell w i g).cells j = if j = i then g (w.cells j) else w.cells j := rfl

theorem bumpNeighbors_cons (w : WorldState) (n : Option Nat)
    (rest : List (Option Nat)) (g : LifeCell → LifeCell) :
    bumpNeighbors w (n :: rest) g =
      bumpNeighbors (match n with | some j => updCell w j g | none => w) rest g :=
  rfl

theorem bumpNeighbors_cells (nb : List (Option Nat)) :
    ∀ (w : WorldState) (g : LifeCell → LifeCell) (j : Nat),
    (bumpNeighbors w nb g).cells j = g^[nb.count (some j)] (w.cells j) := by
  induction nb with
  | nil => intro w g j; rfl
  | cons n rest ih =>
    intro w g j
    rw [bumpNeighbors_cons]
    cases n with
    | none => rw [ih]; simp [List.count_cons]
    | some k =>
      rw [ih, updCell_cells]
      by_cases hk : j = k
      · subst hk
        simp [List.count_cons, Function.iterate_succ_apply]
      · simp [List.count_cons, hk, Ne.symm hk]

theorem bumpNeighbors_fields (nb : List (Option Nat)) :
    ∀ (w : WorldState) (g : LifeCell → LifeCell),
    (bumpNeighbors w nb g).size = w.size ∧
      (bumpNeighbors w nb g).period = w.period ∧
      (bumpNeighbors w nb g).population = w.population ∧
      (bumpNeighbors w nb g).front_count = w.front_count ∧
      (bumpNeighbors w nb g).stack = w.stack ∧
      (bumpNeighbors w nb g).stack_index = w.stack_index ∧
      (bumpNeighbors w nb g).start = w.start ∧
      (bumpNeighbors w nb g).status = w.status := by
  induction nb with
  | nil => intro w g; exact ⟨rfl, rfl, rfl, rfl, rfl, rfl, rfl, rfl⟩
  | cons n rest ih =>
    intro w g
    rw [bumpNeighbors_cons]
    cases n with
    | none => exact ih w g
    | some k => exact ih (updCell w k g) g

theorem iterate_cell_field {α : Type} (f : LifeCell → LifeCell)
    (proj : LifeCell → α) (hf : ∀ c, proj (f c) = proj c) :
    ∀ (n : Nat) (c : LifeCell), proj (f^[n] c) = proj c := by
  intro n
  induction n with
  | zero => intro c; rfl
  | succ m ih =>
    intro c
    rw [Function.iterate_succ_apply, ih, hf]

theorem set_cell_cells (w : WorldState) (i : Nat) (state : CellState)
    (reason : Reason) (j : Nat) :
    (set_cell w i state reason).cells j =
      (if (w.cells i).predecessor = some j then succUpdateCell state else id)
        ((incNeighborCell state)^[(w.cells i).neighborhood.count (some j)]
          (if j = i then setCurrentCell state (w.cells j) else w.cells j)) := by
  unfold set_cell
  cases hp : (w.cells i).predecessor with
  | none =>
    simp only [hp]
    split_ifs <;> simp_all [bumpNeighbors_cells, updCell_cells]
  | some p =>
    simp only [hp]
    by_cases hpj : p = j
    · subst hpj
      split_ifs <;> simp_all [bumpNeighbors_cells, updCell_cells]
    · split_ifs <;>
        simp_all [bumpNeighbors_cells, updCell_cells, hpj, Ne.symm hpj] <;>
        (intro h; exact absurd h.symm hpj)

theorem set_cell_fields (w : WorldState) (i : Nat) (state : CellState)
    (reason : Reason) :
    (set_cell w i state reason).size = w.size ∧
      (set_cell w i state reason).period = w.period ∧
      (set_cell w i state reason).stack = (i, reason) :: w.stack ∧
      (set_cell w i state reason).front_count =
        (if (w.cells i).is_front ∧ state = CellState.Dead then
          w.front_count - 1 else w.front_count) ∧
      (∀ t, (set_cell w i state reason).population t =
        (if state = CellState.Alive ∧ t = (w.cells i).generation then
          w.population t + 1 else w.population t)) := by
  unfold set_cell
  obtain ⟨hs, hp, hpop, hf, hst, -, -, -⟩ :=
    bumpNeighbors_fields (w.cells i).neighborhood (updCell w i (setCurrentCell state))
      (incNeighborCell state)
  cases hpred : (w.cells i).predecessor with
  | none =>
    simp only [hpred]
    split_ifs with h1 h2 <;>
      simp_all [updCell, beq_iff_eq, Bool.and_eq_true]
  | some p =>
    simp only [hpred]
    split_ifs with h1 h2 <;>
      simp_all [updCell, beq_iff_eq, Bool.and_eq_true]

theorem unset_cell_cells (w : WorldState) (i : Nat) (s : CellState)
    (hs : (w.cells i).state = some s) (j : Nat) :
    (unset_cell w i).cells j =
      (if (w.cells i).predecessor = some j then succUpdateCell s else id)
        ((decNeighborCell s)^[(w.cells i).neighborhood.count (some j)]
          (if j = i then unsetCurrentCell s (w.cells j) else w.cells j)) := by
  unfold unset_cell
  rw [hs]
  cases hp : (w.cells i).predecessor with
  | none =>
    simp only [hp]
    split_ifs <;> simp_all [bumpNeighbors_cells, updCell_cells]
  | some p =>
    simp only [hp]
    by_cases hpj : p = j
    · subst hpj
      split_ifs <;> simp_all [bumpNeighbors_cells, updCell_cells]
    · split_ifs <;>
        simp_all [bumpNeighbors_cells, updCell_cells, hpj, Ne.symm hpj] <;>
        (intro h; exact absurd h.symm hpj)

theorem unset_cell_fields (w : WorldState) (i : Nat) (s : CellState)
    (hs : (w.cells i).state = some s) :
    (unset_cell w i).size = w.size ∧
      (unset_cell w i).period = w.period ∧
      (unset_cell w i).stack = w.stack ∧
      (unset_cell w i).front_count =
        (if (w.cells i).is_front ∧ s = CellState.Dead then
          w.front_count + 1 else w.front_count) ∧
      (∀ t, (unset_cell w i).population t =
        (if s = CellState.Alive ∧ t = (w.cells i).generation then
          w.population t - 1 else w.population t)) := by
  unfold unset_cell
  rw [hs]
  obtain ⟨hsz, hp, hpop, hf, hst, -, -, -⟩ :=
    bumpNeighbors_fields (w.cells i).neighborhood
      (updCell w i (unsetCurrentCell s)) (decNeighborCell s)
  cases hpred : (w.cells i).predecessor with
  | none =>
    simp only [hpred]
    split_ifs with h1 h2 <;>
      simp_all [updCell, beq_iff_eq, Bool.and_eq_true]
  | some p =>
    simp only [hpred]
    split_ifs with h1 h2 <;>
      simp_all [updCell, beq_iff_eq, Bool.and_eq_true]

theorem unset_cell_stack (w : WorldState) (i : Nat) :
    (unset_cell w i).stack = w.stack := by
  cases hs : (w.cells i).state with
  | none => unfold unset_cell; rw [hs]
  | some s => exact (unset_cell_fields w i s hs).2.2.1

theorem set_cell_state_at (w : WorldState) (i : Nat) (st : CellState)
    (r : Reason) (j : Nat) :
    ((set_cell w i st r).cells j).state =
      if j = i then some st else (w.cells j).state := by
  rw [set_cell_cells]
  have hit := iterate_cell_field (incNeighborCell st) (fun c => c.state)
    (fun c => rfl)
  by_cases hji : j = i
  · rw [if_pos hji, hji]
    by_cases hpj : (w.cells i).predecessor = some i <;>
      simp [hpj, succUpdateCell, setCurrentCell, hit]
  · by_cases hpj : (w.cells i).predecessor = some j <;>
      simp [hpj, hji, succUpdateCell, setCurrentCell, hit]

theorem set_cell_static_at (w : WorldState) (i : Nat) (st : CellState)
    (r : Reason) (j : Nat) :
    ((set_cell w i st r).cells j).generation = (w.cells j).generation ∧
      ((set_cell w i st r).cells j).is_front = (w.cells j).is_front ∧
      ((set_cell w i st r).cells j).neighborhood = (w.cells j).neighborhood ∧
      ((set_cell w i st r).cells j).predecessor = (w.cells j).predecessor ∧
      ((set_cell w i st r).cells j).next = (w.cells j).next := by
  rw [set_cell_cells]
  have h1 := iterate_cell_field (incNeighborCell st) (fun c => c.generation)
    (fun c => rfl)
  have h2 := iterate_cell_field (incNeighborCell st) (fun c => c.is_front)
    (fun c => rfl)
  have h3 := iterate_cell_field (incNeighborCell st) (fun c => c.neighborhood)
    (fun c => rfl)
  have h4 := iterate_cell_field (incNeighborCell st) (fun c => c.predecessor)
    (fun c => rfl)
  have h5 := iterate_cell_field (incNeighborCell st) (fun c => c.next)
    (fun c => rfl)
  refine ⟨?_, ?_, ?_, ?_, ?_⟩ <;>
    (rcases eq_or_ne j i with hji | hji
     · rw [if_pos hji, hji]
       by_cases hpj : (w.cells i).predecessor = some i <;>
         simp [hpj, succUpdateCell, setCurrentCell, h1, h2, h3, h4, h5]
     · by_cases hpj : (w.cells i).predecessor = some j <;>
         simp [hpj, hji, succUpdateCell, setCurrentCell, h1, h2, h3, h4, h5])

theorem unset_cell_state_at (w : WorldState) (i : Nat) (s : CellState)
    (hs : (w.cells i).state = some s) (j : Nat) :
    ((unset_cell w i).cells j).state =
      if j = i then none else (w.cells j).state := by
  rw [unset_cell_cells w i s hs]
  have hit := iterate_cell_field (decNeighborCell s) (fun c => c.state)
    (fun c => rfl)
  by_cases hji : j = i
  · rw [if_pos hji, hji]
    by_cases hpj : (w.cells i).predecessor = some i <;>
      simp [hpj, succUpdateCell, unsetCurrentCell, hit]
  · by_cases hpj : (w.cells i).predecessor = some j <;>
      simp [hpj, hji, succUpdateCell, unsetCurrentCell, hit]

theorem unset_cell_static_at (w : WorldState) (i : Nat) (s : CellState)
    (hs : (w.cells i).state = some s) (j : Nat) :
    ((unset_cell w i).cells j).generation = (w.cells j).generation ∧
      ((unset_cell w i).cells j).is_front = (w.cells j).is_front ∧
      ((unset_cell w i).cells j).neighborhood = (w.cells j).neighborhood ∧
      ((unset_cell w i).cells j).predecessor = (w.cells j).predecessor ∧
      ((unset_cell w i).cells j).next = (w.cells j).next := by
  rw [unset_cell_cells w i s hs]
  have h1 := iterate_cell_field (decNeighborCell s) (fun c => c.generation)
    (fun c => rfl)
  have h2 := iterate_cell_field (decNeighborCell s) (fun c => c.is_front)
    (fun c => rfl)
  have h3 := iterate_cell_field (decNeighborCell s) (fun c => c.neighborhood)
    (fun c => rfl)
  have h4 := iterate_cell_field (decNeighborCell s) (fun c => c.predecessor)
    (fun c => rfl)
  have h5 := iterate_cell_field (decNeighborCell s) (fun c => c.next)
    (fun c => rfl)
  refine ⟨?_, ?_, ?_, ?_, ?_⟩ <;>
    (rcases eq_or_ne j i with hji | hji
     · rw [if_pos hji, hji]
       by_cases hpj : (w.cells i).predecessor = some i <;>
         simp [hpj, succUpdateCell, unsetCurrentCell, h1, h2, h3, h4, h5]
     · by_cases hpj : (w.cells i).predecessor = some j <;>
         simp [hpj, hji, succUpdateCell, unsetCurrentCell, h1, h2, h3, h4, h5])

theorem countAlive_set (w : WorldState) (i : Nat) (s : CellState) (r : Reason)
    (hi : i < w.size) (hnone : (w.cells i).state = none) (t : Nat) :
    countAlive (set_cell w i s r) t =
      if s = CellState.Alive ∧ (w.cells i).generation = t then
        countAlive w t + 1 else countAlive w t := by
  unfold countAlive
  rw [(set_cell_fields w i s r).1]
  by_cases hc : s = CellState.Alive ∧ (w.cells i).generation = t
  · rw [if_pos hc]
    have hset : ((Finset.range w.size).filter fun j =>
        ((set_cell w i s r).cells j).generation = t ∧
          ((set_cell w i s r).cells j).state = some CellState.Alive) =
        insert i ((Finset.range w.size).filter fun j =>
          (w.cells j).generation = t ∧
            (w.cells j).state = some CellState.Alive) := by
      ext j
      simp only [Finset.mem_filter, Finset.mem_insert, Finset.mem_range,
        set_cell_state_at, (set_cell_static_at w i s r j).1]
      by_cases hji : j = i
      · subst hji
        simp [hi, hc.1, hc.2]
      · simp [hji]
    rw [hset, Finset.card_insert_of_not_mem]
    simp [Finset.mem_filter, hnone]
  · rw [if_neg hc]
    congr 1
    ext j
    simp only [Finset.mem_filter, Finset.mem_range, set_cell_state_at,
      (set_cell_static_at w i s r j).1]
    by_cases hji : j = i
    · subst hji
      simp only [if_pos rfl, hnone]
      constructor
      · rintro ⟨hlt, hgen, hst⟩
        exact absurd ⟨Option.some.inj hst, hgen⟩ hc
      · rintro ⟨-, -, hst⟩
        exact absurd hst (by simp)
    · simp [hji]

theorem countAlive_unset (w : WorldState) (i : Nat) (s : CellState)
    (hi : i < w.size) (hs : (w.cells i).state = some s) (t : Nat) :
    countAlive (unset_cell w i) t =
      if s = CellState.Alive ∧ (w.cells i).generation = t then
        countAlive w t - 1 else countAlive w t := by
  unfold countAlive
  rw [(unset_cell_fields w i s hs).1]
  by_cases hc : s = CellState.Alive ∧ (w.cells i).generation = t
  · rw [if_pos hc]
    have hset : ((Finset.range w.size).filter fun j =>
        ((unset_cell w i).cells j).generation = t ∧
          ((unset_cell w i).cells j).state = some CellState.Alive) =
        ((Finset.range w.size).filter fun j =>
          (w.cells j).generation = t ∧
            (w.cells j).state = some CellState.Alive).erase i := by
      ext j
      simp only [Finset.mem_filter, Finset.mem_erase, Finset.mem_range,
        unset_cell_state_at w i s hs, (unset_cell_static_at w i s hs j).1]
      by_cases hji : j = i
      · subst hji
        simp
      · simp [hji]
    rw [hset, Finset.card_erase_of_mem]
    simp only [Finset.mem_filter, Finset.mem_range]
    exact ⟨hi, hc.2, by rw [hs, hc.1]⟩
  · rw [if_neg hc]
    congr 1
    ext j
    simp only [Finset.mem_filter, Finset.mem_range,
      unset_cell_state_at w i s hs, (unset_cell_static_at w i s hs j).1]
    by_cases hji : j = i
    · subst hji
      simp only [if_pos rfl, hs]
      constructor
      · rintro ⟨-, -, hst⟩
        exact absurd hst (by simp)
      · rintro ⟨hlt, hgen, hst⟩
        exact absurd ⟨Option.some.inj hst, hgen⟩ hc
    · simp [hji]

theorem countFront_set (w : WorldState) (i : Nat) (s : CellState) (r : Reason)
    (hi : i < w.size) (hnone : (w.cells i).state = none) :
    countFront (set_cell w i s r) =
      if (w.cells i).is_front = true ∧ s = CellState.Dead then
        countFront w - 1 else countFront w := by
  unfold countFront
  rw [(set_cell_fields w i s r).1]
  by_cases hc : (w.cells i).is_front = true ∧ s = CellState.Dead
  · rw [if_pos hc]
    have hset : ((Finset.range w.size).filter fun j =>
        ((set_cell w i s r).cells j).is_front = true ∧
          ((set_cell w i s r).cells j).state ≠ some CellState.Dead) =
        ((Finset.range w.size).filter fun j =>
          (w.cells j).is_front = true ∧
            (w.cells j).state ≠ some CellState.Dead).erase i := by
      ext j
      simp only [Finset.mem_filter, Finset.mem_erase, Finset.mem_range,
        set_cell_state_at, (set_cell_static_at w i s r j).2.1]
      by_cases hji : j = i
      · subst hji
        simp [hc.2]
      · simp [hji]
    rw [hset, Finset.card_erase_of_mem]
    simp only [Finset.mem_filter, Finset.mem_range]
    exact ⟨hi, hc.1, by rw [hnone]; simp⟩
  · rw [if_neg hc]
    congr 1
    ext j
    simp only [Finset.mem_filter, Finset.mem_range, set_cell_state_at,
      (set_cell_static_at w i s r j).2.1]
    by_cases hji : j = i
    · subst hji
      simp only [if_pos rfl, hnone]
      constructor
      · rintro ⟨hlt, hf, hst⟩
        refine ⟨hlt, hf, by simp⟩
      · rintro ⟨hlt, hf, -⟩
        refine ⟨hlt, hf, ?_⟩
        intro hst
        exact hc ⟨hf, Option.some.inj hst⟩
    · simp [hji]

theorem countFront_unset (w : WorldState) (i : Nat) (s : CellState)
    (hi : i < w.size) (hs : (w.cells i).state = some s) :
    countFront (unset_cell w i) =
      if (w.cells i).is_front = true ∧ s = CellState.Dead then
        countFront w + 1 else countFront w := by
  unfold countFront
  rw [(unset_cell_fields w i s hs).1]
  by_cases hc : (w.cells i).is_front = true ∧ s = CellState.Dead
  · rw [if_pos hc]
    have hset : ((Finset.range w.size).filter fun j =>
        ((unset_cell w i).cells j).is_front = true ∧
          ((unset_cell w i).cells j).state ≠ some CellState.Dead) =
        insert i ((Finset.range w.size).filter fun j =>
          (w.cells j).is_front = true ∧
            (w.cells j).state ≠ some CellState.Dead) := by
      ext j
      simp only [Finset.mem_filter, Finset.mem_insert, Finset.mem_range,
        unset_cell_state_at w i s hs, (unset_cell_static_at w i s hs j).2.1]
      by_cases hji : j = i
      · subst hji
        simp [hi, hc.1]
      · simp [hji]
    rw [hset, Finset.card_insert_of_not_mem]
    simp only [Finset.mem_filter, Finset.mem_range, not_and, not_not]
    intro _ _
    rw [hs, hc.2]
  · rw [if_neg hc]
    congr 1
    ext j
    simp only [Finset.mem_filter, Finset.mem_range,
      unset_cell_state_at w i s hs, (unset_cell_static_at w i s hs j).2.1]
    by_cases hji : j = i
    · subst hji
      simp only [if_pos rfl, hs]
      constructor
      · rintro ⟨hlt, hf, -⟩
        refine ⟨hlt, hf, ?_⟩
        intro hst
        exact hc ⟨hf, Option.some.inj hst⟩
      · rintro ⟨hlt, hf, -⟩
        exact ⟨hlt, hf, by simp⟩
    · simp [hji]

theorem reachable_population (w : WorldState) (hw : Reachable w) :
    ∀ t, w.population t = countAlive w t := by
  induction hw with
  | init w h =>
    intro t
    rw [h.2.1 t]
    symm
    unfold countAlive
    rw [Finset.card_eq_zero, Finset.filter_eq_empty_iff]
    intro j hj
    simp [h.1 j]
  | set w i s r hw hi hnone ih =>
    intro t
    rw [(set_cell_fields w i s r).2.2.2.2 t, countAlive_set w i s r hi hnone t]
    by_cases hA : s = CellState.Alive ∧ t = (w.cells i).generation
    · rw [if_pos hA, if_pos ⟨hA.1, hA.2.symm⟩, ih t]
    · rw [if_neg hA, if_neg (fun h => hA ⟨h.1, h.2.symm⟩), ih t]
  | unset w i s hw hi hsome ih =>
    intro t
    rw [(unset_cell_fields w i s hsome).2.2.2.2 t,
      countAlive_unset w i s hi hsome t]
    by_cases hA : s = CellState.Alive ∧ t = (w.cells i).generation
    · rw [if_pos hA, if_pos ⟨hA.1, hA.2.symm⟩, ih t]
    · rw [if_neg hA, if_neg (fun h => hA ⟨h.1, h.2.symm⟩), ih t]
  | ctrl w st si so stat hw ih =>
    intro t
    exact ih t

/-- **C3.** In every world state reachable from construction by `set_cell`
and `unset_cell` operations (and the search loop's stack bookkeeping), and
for every generation `t` below the period, the tracked `population[t]`
equals the number of cells of generation `t` whose state is `Alive`. -/
theorem population_tracks_alive (w : WorldState) (hw : Reachable w) (t : Nat)
    (ht : t < w.period) : w.population t = countAlive w t :=
  reachable_population w hw t

/-- Witness for C3: starting from the freshly initialized one-cell world
and setting its cell alive by a guess, the tracked population of
generation 0 (namely 1) equals the recount. -/
theorem population_tracks_alive_witness :
    (set_cell wInit 0 CellState.Alive Reason.Guessed).population 0 =
      countAlive (set_cell wInit 0 CellState.Alive Reason.Guessed) 0 := by
  have hinit : IsInitial wInit := ⟨fun i => rfl, fun t => rfl, by decide, rfl⟩
  exact population_tracks_alive _
    (Reachable.set wInit 0 CellState.Alive Reason.Guessed
      (Reachable.init wInit hinit) (by decide) rfl)
    0 (by decide)

theorem reachable_front (w : WorldState) (hw : Reachable w) :
    w.front_count = countFront w := by
  induction hw with
  | init w h => exact h.2.2.1
  | set w i s r hw hi hnone ih =>
    rw [(set_cell_fields w i s r).2.2.2.1, countFront_set w i s r hi hnone]
    by_cases hA : (w.cells i).is_front = true ∧ s = CellState.Dead
    · rw [if_pos hA, if_pos hA, ih]
    · rw [if_neg hA, if_neg hA, ih]
  | unset w i s hw hi hsome ih =>
    rw [(unset_cell_fields w i s hsome).2.2.2.1,
      countFront_unset w i s hi hsome]
    by_cases hA : (w.cells i).is_front = true ∧ s = CellState.Dead
    · rw [if_pos hA, if_pos hA, ih]
    · rw [if_neg hA, if_neg hA, ih]
  | ctrl w st si so stat hw ih => exact ih

/-- **C8.** In every reachable world state, `front_count` equals the number
of cells with `is_front` set whose state is not known `Dead`. -/
theorem front_count_tracks_front (w : WorldState) (hw : Reachable w) :
    w.front_count = countFront w :=
  reachable_front w hw

/-- Witness for C8: after setting the front cell of the initialized
one-cell world to `Dead`, the tracked front count (0) equals the
recount. -/
theorem front_count_tracks_front_witness :
    (set_cell wInit 0 CellState.Dead Reason.Deduced).front_count =
      countFront (set_cell wInit 0 CellState.Dead Reason.Deduced) := by
  have hinit : IsInitial wInit := ⟨fun i => rfl, fun t => rfl, by decide, rfl⟩
  exact front_count_tracks_front _
    (Reachable.set wInit 0 CellState.Dead Reason.Deduced
      (Reachable.init wInit hinit) (by decide) rfl)

/-! ## Descriptor round-trip arithmetic (claim C4)

The descriptor updates of `set_cell` and `unset_cell` are, at the level of
the packed `u16` value, XORs with 4-bit masks and wrapping additions of
multiples of 16.  The following lemmas show that an XOR with a mask below
16 commutes with a wrapping addition of a multiple of 16, and that the
update sequence of `unset_cell(c); set_cell(c, s, r)` cancels. -/

theorem xor_low_nibble (q r a : Nat) (hr : r < 16) (ha : a < 16) :
    (16 * q + r) ^^^ a = 16 * q + (r ^^^ a) := by
  have hx : r ^^^ a < 16 := Nat.xor_lt_two_pow (n := 4) hr ha
  apply Nat.eq_of_testBit_eq
  intro i
  have h1 : (16 * q + r).testBit i =
      if i < 4 then r.testBit i else q.testBit (i - 4) := by
    have := Nat.testBit_mul_pow_two_add q (by exact hr : r < 2 ^ 4) i
    simpa [Nat.pow_succ, Nat.mul_comm] using this
  have h2 : (16 * q + (r ^^^ a)).testBit i =
      if i < 4 then (r ^^^ a).testBit i else q.testBit (i - 4) := by
    have := Nat.testBit_mul_pow_two_add q (by exact hx : r ^^^ a < 2 ^ 4) i
    simpa [Nat.pow_succ, Nat.mul_comm] using this
  rw [Nat.testBit_xor, h1, h2]
  by_cases hi : i < 4
  · simp [hi, Nat.testBit_xor]
  · simp only [hi, if_false]
    have ha4 : a < 2 ^ i := Nat.lt_of_lt_of_le ha
      (Nat.pow_le_pow_right (by norm_num) (by omega) : (2 : Nat) ^ 4 ≤ 2 ^ i)
    have : a.testBit i = false := Nat.testBit_lt_two_pow ha4
    simp [this]

theorem addmul16_xor_comm (d k a : Nat) (ha : a < 16) :
    ((d + 16 * k) % 2 ^ 16) ^^^ a = ((d ^^^ a) + 16 * k) % 2 ^ 16 := by
  have hr : d % 16 < 16 := Nat.mod_lt _ (by norm_num)
  have hqr : d = 16 * (d / 16) + d % 16 := by omega
  set q := d / 16 with hq
  set r := d % 16 with hrdef
  have hx : r ^^^ a < 16 := Nat.xor_lt_two_pow (n := 4) hr ha
  have e1 : (d + 16 * k) % 2 ^ 16 = 16 * ((q + k) % 4096) + r := by omega
  have e2 : d ^^^ a = 16 * q + (r ^^^ a) := by
    rw [hqr]; exact xor_low_nibble q r a hr ha
  rw [e1, xor_low_nibble _ r a hr ha, e2]
  omega

theorem addWrap_iterate (amt : Nat) :
    ∀ (n d : Nat), d < 2 ^ 16 →
      (fun d => (d + amt) % 2 ^ 16)^[n] d = (d + n * amt) % 2 ^ 16 := by
  intro n
  induction n with
  | zero =>
    intro d hd
    simpa using (Nat.mod_eq_of_lt hd).symm
  | succ m ih =>
    intro d hd
    rw [Function.iterate_succ_apply]
    have h1 : (d + amt) % 2 ^ 16 < 2 ^ 16 := Nat.mod_lt _ (by norm_num)
    have := ih ((d + amt) % 2 ^ 16) h1
    simp only at this
    rw [this, Nat.succ_mul]
    omega

theorem increment_dead_iterate (n d : Nat) (hd : d < 2 ^ 16) :
    Descriptor.increment_dead^[n] d = (d + n * 256) % 2 ^ 16 :=
  addWrap_iterate 256 n d hd

theorem increment_alive_iterate (n d : Nat) (hd : d < 2 ^ 16) :
    Descriptor.increment_alive^[n] d = (d + n * 16) % 2 ^ 16 :=
  addWrap_iterate 16 n d hd

theorem decrement_dead_iterate (n d : Nat) (hd : d < 2 ^ 16) :
    Descriptor.decrement_dead^[n] d = (d + n * 65280) % 2 ^ 16 :=
  addWrap_iterate 65280 n d hd

theorem decrement_alive_iterate (n d : Nat) (hd : d < 2 ^ 16) :
    Descriptor.decrement_alive^[n] d = (d + n * 65520) % 2 ^ 16 :=
  addWrap_iterate 65520 n d hd

theorem iterate_cell_descriptor (f : LifeCell → LifeCell) (fd : Nat → Nat)
    (hf : ∀ c, (f c).descriptor = fd c.descriptor) :
    ∀ (n : Nat) (c : LifeCell), (f^[n] c).descriptor = fd^[n] c.descriptor := by
  intro n
  induction n with
  | zero => intro c; rfl
  | succ m ih =>
    intro c
    rw [Function.iterate_succ_apply, Function.iterate_succ_apply, ih, hf]

theorem xor_shuffle (x a b : Nat) : x ^^^ a ^^^ b ^^^ a = x ^^^ b := by
  apply Nat.eq_of_testBit_eq
  intro i
  simp only [Nat.testBit_xor]
  cases x.testBit i <;> cases (a.testBit i) <;> cases (b.testBit i) <;> rfl

theorem xor_cancel16 (x b : Nat) : x ^^^ b ^^^ b = x := by
  rw [Nat.xor_assoc, Nat.xor_self, Nat.xor_zero]

theorem roundtrip_core (D n a b d16 i16 : Nat) (hD : D < 2 ^ 16)
    (ha : a < 16) (hb : b < 16)
    (hsum : d16 + i16 = 4096) :
    ((((((D ^^^ a) + n * (16 * d16)) % 2 ^ 16) ^^^ b ^^^ a) + n * (16 * i16))
        % 2 ^ 16) ^^^ b = D := by
  have h1 : (((D ^^^ a) + n * (16 * d16)) % 2 ^ 16) ^^^ b =
      (((D ^^^ a) ^^^ b) + n * (16 * d16)) % 2 ^ 16 := by
    have := addmul16_xor_comm (D ^^^ a) (n * d16) b hb
    rwa [show 16 * (n * d16) = n * (16 * d16) by ring] at this
  rw [h1]
  have h2 : ((((D ^^^ a) ^^^ b) + n * (16 * d16)) % 2 ^ 16) ^^^ a =
      ((((D ^^^ a) ^^^ b) ^^^ a) + n * (16 * d16)) % 2 ^ 16 := by
    have := addmul16_xor_comm ((D ^^^ a) ^^^ b) (n * d16) a ha
    rwa [show 16 * (n * d16) = n * (16 * d16) by ring] at this
  rw [h2, xor_shuffle]
  have h3 : ((((D ^^^ b) + n * (16 * d16)) % 2 ^ 16) + n * (16 * i16)) % 2 ^ 16
      = D ^^^ b := by
    have hDb : D ^^^ b < 2 ^ 16 :=
      Nat.xor_lt_two_pow (n := 16) hD (by omega)
    have hk : n * (16 * d16) + n * (16 * i16) = 65536 * n := by
      have : 16 * d16 + 16 * i16 = 65536 := by omega
      calc n * (16 * d16) + n * (16 * i16) = n * (16 * d16 + 16 * i16) := by ring
        _ = 65536 * n := by rw [this]; ring
    omega
  rw [h3, xor_cancel16]

theorem roundtrip_dead (D n a b : Nat) (hD : D < 2 ^ 16) (ha : a < 16)
    (hb : b < 16) :
    ((((((D ^^^ a) + n * 65280) % 2 ^ 16) ^^^ b ^^^ a) + n * 256) % 2 ^ 16)
        ^^^ b = D := by
  have := roundtrip_core D n a b 4080 16 hD ha hb (by norm_num)
  norm_num at this
  exact this

theorem roundtrip_alive (D n a b : Nat) (hD : D < 2 ^ 16) (ha : a < 16)
    (hb : b < 16) :
    ((((((D ^^^ a) + n * 65520) % 2 ^ 16) ^^^ b ^^^ a) + n * 16) % 2 ^ 16)
        ^^^ b = D := by
  have := roundtrip_core D n a b 4095 1 hD ha hb (by norm_num)
  norm_num at this
  exact this

/-- **C4.** For every cell whose state is known with value `s`, executing
`unset_cell` followed by `set_cell` with the same state restores the
descriptor of every cell of the world — in particular those of the cell
itself, of each of its neighbors, and of its predecessor — to exactly its
value before the `unset_cell` call.  (The stack is the one field the pair
does not restore: `unset_cell` leaves popping to its caller while
`set_cell` pushes.) -/
theorem unset_set_restores_descriptors (w : WorldState) (i : Nat)
    (s : CellState) (r : Reason) (hs : (w.cells i).state = some s)
    (hdesc : ∀ j, (w.cells j).descriptor < 2 ^ 16) (j : Nat) :
    ((set_cell (unset_cell w i) i s r).cells j).descriptor =
      (w.cells j).descriptor := by
  have hIncD := iterate_cell_descriptor (incNeighborCell CellState.Dead)
    Descriptor.increment_dead (fun c => rfl)
  have hIncA := iterate_cell_descriptor (incNeighborCell CellState.Alive)
    Descriptor.increment_alive (fun c => rfl)
  have hDecD := iterate_cell_descriptor (decNeighborCell CellState.Dead)
    Descriptor.decrement_dead (fun c => rfl)
  have hDecA := iterate_cell_descriptor (decNeighborCell CellState.Alive)
    Descriptor.decrement_alive (fun c => rfl)
  rw [set_cell_cells, (unset_cell_static_at w i s hs i).2.2.2.1,
    (unset_cell_static_at w i s hs i).2.2.1, unset_cell_cells w i s hs j]
  rcases eq_or_ne j i with rfl | hji
  · by_cases hpj : (w.cells j).predecessor = some j <;> cases s <;>
      simp only [hpj, if_true, if_false, eq_self_iff_true, id_eq,
        if_pos, if_neg, not_false_iff, succUpdateCell, setCurrentCell,
        unsetCurrentCell, hIncD, hIncA, hDecD, hDecA,
        Descriptor.update_current, Descriptor.update_successor,
        CellState.code, show (1 : Nat) * 4 = 4 from rfl,
        show (2 : Nat) * 4 = 8 from rfl]
    · set n := List.count (some j) (w.cells j).neighborhood with hn
      set D := (w.cells j).descriptor with hDg
      have hW : D < 2 ^ 16 := hdesc j
      rw [decrement_dead_iterate n (D ^^^ 1)
        (Nat.xor_lt_two_pow (n := 16) hW (by norm_num))]
      have h2 : (((D ^^^ 1) + n * 65280) % 2 ^ 16) ^^^ 4 ^^^ 1 < 2 ^ 16 := by
        refine Nat.xor_lt_two_pow (n := 16)
          (Nat.xor_lt_two_pow (n := 16) (Nat.mod_lt _ (by norm_num)) (by norm_num))
          (by norm_num)
      rw [increment_dead_iterate n _ h2]
      exact roundtrip_dead D n 1 4 hW (by norm_num) (by norm_num)
    · set n := List.count (some j) (w.cells j).neighborhood with hn
      set D := (w.cells j).descriptor with hDg
      have hW : D < 2 ^ 16 := hdesc j
      rw [decrement_alive_iterate n (D ^^^ 2)
        (Nat.xor_lt_two_pow (n := 16) hW (by norm_num))]
      have h2 : (((D ^^^ 2) + n * 65520) % 2 ^ 16) ^^^ 8 ^^^ 2 < 2 ^ 16 := by
        refine Nat.xor_lt_two_pow (n := 16)
          (Nat.xor_lt_two_pow (n := 16) (Nat.mod_lt _ (by norm_num)) (by norm_num))
          (by norm_num)
      rw [increment_alive_iterate n _ h2]
      exact roundtrip_alive D n 2 8 hW (by norm_num) (by norm_num)
    · set n := List.count (some j) (w.cells j).neighborhood with hn
      set D := (w.cells j).descriptor with hDg
      have hW : D < 2 ^ 16 := hdesc j
      rw [decrement_dead_iterate n (D ^^^ 1)
        (Nat.xor_lt_two_pow (n := 16) hW (by norm_num))]
      have h2 : (((D ^^^ 1) + n * 65280) % 2 ^ 16) ^^^ 1 < 2 ^ 16 :=
        Nat.xor_lt_two_pow (n := 16) (Nat.mod_lt _ (by norm_num)) (by norm_num)
      rw [increment_dead_iterate n _ h2]
      simpa using roundtrip_dead D n 1 0 hW (by norm_num) (by norm_num)
    · set n := List.count (some j) (w.cells j).neighborhood with hn
      set D := (w.cells j).descriptor with hDg
      have hW : D < 2 ^ 16 := hdesc j
      rw [decrement_alive_iterate n (D ^^^ 2)
        (Nat.xor_lt_two_pow (n := 16) hW (by norm_num))]
      have h2 : (((D ^^^ 2) + n * 65520) % 2 ^ 16) ^^^ 2 < 2 ^ 16 :=
        Nat.xor_lt_two_pow (n := 16) (Nat.mod_lt _ (by norm_num)) (by norm_num)
      rw [increment_alive_iterate n _ h2]
      simpa using roundtrip_alive D n 2 0 hW (by norm_num) (by norm_num)
  · by_cases hpj : (w.cells i).predecessor = some j <;> cases s <;>
      simp only [hpj, hji, if_true, if_false, eq_self_iff_true, id_eq,
        if_pos, if_neg, not_false_iff, succUpdateCell, setCurrentCell,
        unsetCurrentCell, hIncD, hIncA, hDecD, hDecA,
        Descriptor.update_current, Descriptor.update_successor,
        CellState.code, show (1 : Nat) * 4 = 4 from rfl,
        show (2 : Nat) * 4 = 8 from rfl]
    · set n := List.count (some j) (w.cells i).neighborhood with hn
      set D := (w.cells j).descriptor with hDg
      have hW : D < 2 ^ 16 := hdesc j
      rw [decrement_dead_iterate n D hW]
      have h2 : ((D + n * 65280) % 2 ^ 16) ^^^ 4 < 2 ^ 16 :=
        Nat.xor_lt_two_pow (n := 16) (Nat.mod_lt _ (by norm_num)) (by norm_num)
      rw [increment_dead_iterate n _ h2]
      simpa using roundtrip_dead D n 0 4 hW (by norm_num) (by norm_num)
    · set n := List.count (some j) (w.cells i).neighborhood with hn
      set D := (w.cells j).descriptor with hDg
      have hW : D < 2 ^ 16 := hdesc j
      rw [decrement_alive_iterate n D hW]
      have h2 : ((D + n * 65520) % 2 ^ 16) ^^^ 8 < 2 ^ 16 :=
        Nat.xor_lt_two_pow (n := 16) (Nat.mod_lt _ (by norm_num)) (by norm_num)
      rw [increment_alive_iterate n _ h2]
      simpa using roundtrip_alive D n 0 8 hW (by norm_num) (by norm_num)
    · set n := List.count (some j) (w.cells i).neighborhood with hn
      set D := (w.cells j).descriptor with hDg
      have hW : D < 2 ^ 16 := hdesc j
      rw [decrement_dead_iterate n D hW]
      rw [increment_dead_iterate n _ (Nat.mod_lt _ (by norm_num))]
      simpa using roundtrip_dead D n 0 0 hW (by norm_num) (by norm_num)
    · set n := List.count (some j) (w.cells i).neighborhood with hn
      set D := (w.cells j).descriptor with hDg
      have hW : D < 2 ^ 16 := hdesc j
      rw [decrement_alive_iterate n D hW]
      rw [increment_alive_iterate n _ (Nat.mod_lt _ (by norm_num))]
      simpa using roundtrip_alive D n 0 0 hW (by norm_num) (by norm_num)

/-- Witness for C4: in the two-cell world `wPair` (whose cell 0 is known
alive, has cell 1 as a neighbor and is its own predecessor), unsetting and
re-setting cell 0 restores the descriptors of both cells. -/
theorem unset_set_restores_descriptors_witness :
    ((set_cell (unset_cell wPair 0) 0 CellState.Alive Reason.Deduced).cells 0).descriptor
        = (wPair.cells 0).descriptor ∧
      ((set_cell (unset_cell wPair 0) 0 CellState.Alive Reason.Deduced).cells 1).descriptor
        = (wPair.cells 1).descriptor := by
  have hdesc : ∀ j, (wPair.cells j).descriptor < 2 ^ 16 := by
    intro j
    by_cases h : j = 0 <;> simp [wPair, h, cellPair0, cellPair1]
  exact ⟨unset_set_restores_descriptors wPair 0 CellState.Alive Reason.Deduced
      rfl hdesc 0,
    unset_set_restores_descriptors wPair 0 CellState.Alive Reason.Deduced
      rfl hdesc 1⟩

/-! ## Backtracking (claim C2) -/

theorem updCell_stack_set (w : WorldState) (st : List (Nat × Reason)) (k : Nat)
    (g : LifeCell → LifeCell) :
    updCell { w with stack := st } k g = { updCell w k g with stack := st } :=
  rfl

theorem bumpNeighbors_stack_set (nb : List (Option Nat)) :
    ∀ (w : WorldState) (st : List (Nat × Reason)) (g : LifeCell → LifeCell),
    bumpNeighbors { w with stack := st } nb g =
      { bumpNeighbors w nb g with stack := st } := by
  induction nb with
  | nil => intro w st g; rfl
  | cons n rest ih =>
    intro w st g
    cases n with
    | none =>
      rw [bumpNeighbors_cons, bumpNeighbors_cons]
      exact ih w st g
    | some k =>
      rw [bumpNeighbors_cons, bumpNeighbors_cons]
      show bumpNeighbors (updCell { w with stack := st } k g) rest g =
        { bumpNeighbors (updCell w k g) rest g with stack := st }
      rw [updCell_stack_set]
      exact ih (updCell w k g) st g

theorem unset_cell_stack_set (w : WorldState) (st : List (Nat × Reason))
    (i : Nat) :
    unset_cell { w with stack := st } i = { unset_cell w i with stack := st } := by
  simp only [unset_cell]
  cases hs : (w.cells i).state with
  | none => rfl
  | some s =>
    simp only [updCell_stack_set, bumpNeighbors_stack_set]
    cases hp : (w.cells i).predecessor with
    | none => split_ifs <;> rfl
    | some p =>
      simp only [updCell_stack_set]
      split_ifs <;> rfl

theorem foldl_unset_stack_set (ds : List (Nat × Reason)) :
    ∀ (w : WorldState) (st : List (Nat × Reason)),
    ds.foldl (fun wa e => unset_cell wa e.1) { w with stack := st } =
      { ds.foldl (fun wa e => unset_cell wa e.1) w with stack := st } := by
  induction ds with
  | nil => intro w st; rfl
  | cons e rest ih =>
    intro w st
    simp only [List.foldl_cons, unset_cell_stack_set]
    exact ih (unset_cell w e.1) st

theorem backtrackLoop_nil (w : WorldState) :
    backtrackLoop w [] = (w, Status.NoSolution) := rfl

theorem backtrackLoop_cons_known (w : WorldState) (i : Nat)
    (rest : List (Nat × Reason)) :
    backtrackLoop w ((i, Reason.Known) :: rest) =
      ({ w with stack := rest }, Status.NoSolution) := rfl

theorem backtrackLoop_cons_deduced (w : WorldState) (i : Nat)
    (rest : List (Nat × Reason)) :
    backtrackLoop w ((i, Reason.Deduced) :: rest) =
      backtrackLoop (unset_cell { w with stack := rest } i) rest := rfl

theorem backtrackLoop_cons_guessed (w : WorldState) (i : Nat)
    (rest : List (Nat × Reason)) (s : CellState)
    (hs : (w.cells i).state = some s) :
    backtrackLoop w ((i, Reason.Guessed) :: rest) =
      (set_cell (unset_cell
          { w with
            stack := rest, stack_index := rest.length,
            start := (w.cells i).next } i) i s.not Reason.Deduced,
        Status.Running) := by
  simp only [backtrackLoop, hs]

theorem backtrackLoop_pops_to_guess (ds : List (Nat × Reason)) :
    ∀ (w : WorldState) (i : Nat) (rest : List (Nat × Reason)) (s : CellState),
    (∀ e ∈ ds, e.2 = Reason.Deduced) →
    ((ds.foldl (fun wa e => unset_cell wa e.1) w).cells i).state = some s →
    backtrackLoop w (ds ++ (i, Reason.Guessed) :: rest) =
      (set_cell (unset_cell
          { ds.foldl (fun wa e => unset_cell wa e.1) w with
            stack := rest, stack_index := rest.length,
            start := ((ds.foldl (fun wa e => unset_cell wa e.1) w).cells i).next }
          i) i s.not Reason.Deduced, Status.Running) := by
  induction ds with
  | nil =>
    intro w i rest s _ hsi
    rw [List.foldl_nil] at hsi
    rw [List.nil_append, backtrackLoop_cons_guessed w i rest s hsi, List.foldl_nil]
  | cons e ds' ih =>
    intro w i rest s hds hsi
    obtain ⟨m, r⟩ := e
    have hr : r = Reason.Deduced := hds (m, r) (List.mem_cons_self _ _)
    subst hr
    rw [List.cons_append, backtrackLoop_cons_deduced]
    have hsi' : ((ds'.foldl (fun wa e => unset_cell wa e.1)
        (unset_cell
          { w with stack := ds' ++ (i, Reason.Guessed) :: rest } m)).cells
          i).state = some s := by
      rw [unset_cell_stack_set, foldl_unset_stack_set]
      exact hsi
    rw [ih (unset_cell { w with stack := ds' ++ (i, Reason.Guessed) :: rest } m)
        i rest s (fun e he => hds e (List.mem_cons_of_mem _ he)) hsi',
      unset_cell_stack_set, foldl_unset_stack_set]
    rfl

theorem backtrackLoop_stops_at_known (ds : List (Nat × Reason)) :
    ∀ (w : WorldState) (k : Nat) (rest : List (Nat × Reason)),
    (∀ e ∈ ds, e.2 = Reason.Deduced) →
    backtrackLoop w (ds ++ (k, Reason.Known) :: rest) =
      ({ ds.foldl (fun wa e => unset_cell wa e.1) w with stack := rest },
        Status.NoSolution) := by
  induction ds with
  | nil =>
    intro w k rest _
    rw [List.nil_append, backtrackLoop_cons_known, List.foldl_nil]
  | cons e ds' ih =>
    intro w k rest hds
    obtain ⟨m, r⟩ := e
    have hr : r = Reason.Deduced := hds (m, r) (List.mem_cons_self _ _)
    subst hr
    rw [List.cons_append, backtrackLoop_cons_deduced,
      ih (unset_cell { w with stack := ds' ++ (k, Reason.Known) :: rest } m)
        k rest (fun e he => hds e (List.mem_cons_of_mem _ he)),
      unset_cell_stack_set, foldl_unset_stack_set]
    rfl

theorem backtrackLoop_exhausts (ds : List (Nat × Reason)) :
    ∀ (w : WorldState), w.stack = ds → (∀ e ∈ ds, e.2 = Reason.Deduced) →
    backtrackLoop w ds =
      ({ ds.foldl (fun wa e => unset_cell wa e.1) w with stack := [] },
        Status.NoSolution) := by
  induction ds with
  | nil =>
    intro w hw _
    rw [backtrackLoop_nil, List.foldl_nil]
    have h0 : ({ w with stack := ([] : List (Nat × Reason)) } : WorldState) = w := by
      rw [← hw]
    rw [h0]
  | cons e ds' ih =>
    intro w hw hds
    obtain ⟨m, r⟩ := e
    have hr : r = Reason.Deduced := hds (m, r) (List.mem_cons_self _ _)
    subst hr
    rw [backtrackLoop_cons_deduced]
    have hw' : (unset_cell { w with stack := ds' } m).stack = ds' := by
      rw [unset_cell_stack]
    rw [ih (unset_cell { w with stack := ds' } m) hw'
        (fun e he => hds e (List.mem_cons_of_mem _ he)),
      unset_cell_stack_set, foldl_unset_stack_set]
    rfl

/-- **C2.** `World::backtrack` (`lib/src/search.rs`) pops stack entries
until a `Guessed` entry is found, calling `unset_cell` on each popped
`Deduced` entry; the guessed cell (if still known, with state `s`) is
unset and re-set to the opposite state with reason `Deduced`, `start` is
rewound to that cell's `next`, `stack_index` is set to the popped stack's
length, and `Running` is returned.  A popped `Known` entry stops the scan
immediately: it is *not* unset (contrary to the claim's wording, which
says each popped `Deduced` or `Known` entry triggers `unset_cell`), the
entries below it stay on the stack, and `NoSolution` is returned.  If the
stack is exhausted without finding a `Guessed` entry, `NoSolution` is
returned. -/
theorem backtrack_spec :
    (∀ (w : WorldState) (ds : List (Nat × Reason)) (i : Nat)
        (rest : List (Nat × Reason)) (s : CellState),
      w.stack = ds ++ (i, Reason.Guessed) :: rest →
      (∀ e ∈ ds, e.2 = Reason.Deduced) →
      ((ds.foldl (fun wa e => unset_cell wa e.1) w).cells i).state = some s →
      backtrack w =
        (set_cell (unset_cell
            { ds.foldl (fun wa e => unset_cell wa e.1) w with
              stack := rest, stack_index := rest.length,
              start :=
                ((ds.foldl (fun wa e => unset_cell wa e.1) w).cells i).next }
            i) i s.not Reason.Deduced, Status.Running)) ∧
    (∀ (w : WorldState) (ds : List (Nat × Reason)) (k : Nat)
        (rest : List (Nat × Reason)),
      w.stack = ds ++ (k, Reason.Known) :: rest →
      (∀ e ∈ ds, e.2 = Reason.Deduced) →
      backtrack w =
        ({ ds.foldl (fun wa e => unset_cell wa e.1) w with stack := rest },
          Status.NoSolution)) ∧
    (∀ (w : WorldState) (ds : List (Nat × Reason)),
      w.stack = ds → (∀ e ∈ ds, e.2 = Reason.Deduced) →
      backtrack w =
        ({ ds.foldl (fun wa e => unset_cell wa e.1) w with stack := [] },
          Status.NoSolution)) := by
  refine ⟨?_, ?_, ?_⟩
  · intro w ds i rest s hstack hds hsi
    unfold backtrack
    rw [hstack]
    exact backtrackLoop_pops_to_guess ds w i rest s hds hsi
  · intro w ds k rest hstack hds
    unfold backtrack
    rw [hstack]
    exact backtrackLoop_stops_at_known ds w k rest hds
  · intro w ds hstack hds
    unfold backtrack
    rw [hstack]
    exact backtrackLoop_exhausts ds w hstack hds

/-- Witness for C2: on the one-cell world `wGuessTop`, whose stack holds a
single `Guessed` entry for its known-alive cell, `backtrack` returns
`Running` and the cell ends up known dead (the opposite state). -/
theorem backtrack_spec_witness :
    (backtrack wGuessTop).2 = Status.Running ∧
      ((backtrack wGuessTop).1.cells 0).state = some CellState.Dead := by
  have h := backtrack_spec.1 wGuessTop [] 0 [] CellState.Alive rfl
    (by intro e he; cases he) rfl
  rw [h]
  exact ⟨rfl, rfl⟩

/-- Counterexample to the claim's wording of C2 (that each popped
`Deduced` *or `Known`* entry triggers `unset_cell`): on the one-cell world
`wKnownTop`, whose stack holds a single `Known` entry for its known-dead
cell, `backtrack` pops the entry and returns `NoSolution`, but the cell is
*still known dead* afterwards — whereas actually calling `unset_cell` on it
would have made it unknown. -/
theorem backtrack_known_not_unset :
    backtrack wKnownTop = ({ wKnownTop with stack := [] }, Status.NoSolution) ∧
      ((backtrack wKnownTop).1.cells 0).state = some CellState.Dead ∧
      ((unset_cell wKnownTop 0).cells 0).state = none :=
  ⟨rfl, rfl, rfl⟩

end Factoriosrc
